import Mathlib

/-!
# Verification of the kiwoom_bot trading engine against its specification

Shallow embedding of the core logic of `kiwoom/strategy.py`,
`kiwoom/api_v1.py` and `kiwoom/database.py` (an automated day-trading bot),
together with proofs and refutations of the specification's claims about it.

Modelling conventions:
* Python `float` arithmetic on rates and prices is modelled exactly over `ℚ`;
  monetary amounts and quantities are `ℤ` as in the source (Korean won,
  share counts).
* Python `int(x)` (truncation towards zero) on a ratio of integers is
  `Int.tdiv`; Python `round(x, 2)` is round-half-to-even at two decimals,
  computed on the exact rational.
* Python strings are `List Char`; the Korean status strings of the source
  are given verbatim; `"매도" in status` is `containsSub maedo status`.
* Wall-clock instants are seconds-since-midnight (`ℕ`) or elapsed
  durations (`ℚ`), passed explicitly where the source calls
  `datetime.now()`.
-/

namespace KiwoomBot

/-! ## String / character-list helpers -/

/-- Prefix test on character lists (helper for substring search). -/
def listHasPrefix : List Char → List Char → Bool
  | [], _ => true
  | _ :: _, [] => false
  | p :: ps, c :: cs => p == c && listHasPrefix ps cs

/-- `containsSub pat s` is Python's `pat in s` on strings. -/
def containsSub (pat : List Char) : List Char → Bool
  | [] => pat.isEmpty
  | c :: cs => listHasPrefix pat (c :: cs) || containsSub pat cs

/-- The substring `"매도"` (sell) used by status checks in `strategy.py`. -/
def maedo : List Char := ['매', '도']

/-- The substring `"매수"` (buy) used by `manage_unfilled_orders`. -/
def maesu : List Char := ['매', '수']

/-- Status `"매수주문"` (BUY_ORDERED). -/
def stBuyOrdered : List Char := ['매', '수', '주', '문']

/-- Status `"매도주문"` (plain SELL_ORDERED, listed in `manage_unfilled_orders`). -/
def stSellOrderedPlain : List Char := ['매', '도', '주', '문']

/-- Status `"매도주문중"` (SELL_ORDERED, set by `manage_open_positions`). -/
def stSellOrdered : List Char := ['매', '도', '주', '문', '중']

/-- Status `"매도주문중(일괄)"` (SELL_ORDERED_BULK, set by bulk sell and market-close liquidation). -/
def stSellOrderedBulk : List Char := ['매', '도', '주', '문', '중', '(', '일', '괄', ')']

/-- Status `"매도주문중(시초가손절)"` (SELL_ORDERED_GAP, set by morning liquidation). -/
def stSellOrderedGap : List Char :=
  ['매', '도', '주', '문', '중', '(', '시', '초', '가', '손', '절', ')']

/-- Status `"보유 (체결)"` (HELD after a fill). -/
def stHeldFilled : List Char := ['보', '유', ' ', '(', '체', '결', ')']

/-- Status `"보유 (동기화됨)"` (HELD, created by reconciliation). -/
def stHeldSynced : List Char := ['보', '유', ' ', '(', '동', '기', '화', '됨', ')']

/-- Status `"보유 (잔고)"` (HELD, restored from the initial balance). -/
def stHeldBalance : List Char := ['보', '유', ' ', '(', '잔', '고', ')']

/-! ## Python numeric helpers -/

/-- Python `int(a * (n/d))` for an integer amount `a` and a fee rate `n/d`:
truncation towards zero of the exact rational `a*n/d` (`Int.tdiv`). -/
def pyIntMulRate (a n d : ℤ) : ℤ := (a * n).tdiv d

/-- Round-half-to-even of the fraction `a / b` (`b > 0` intended), as used by
Python's `round`. `n` is the floor; `r2` compares twice the remainder
against the denominator to detect the half-way point. -/
def bankerRound (a b : ℤ) : ℤ :=
  let n := Int.fdiv a b
  let r2 := 2 * (a - n * b)
  if r2 < b then n else if b < r2 then n + 1 else if n % 2 = 0 then n else n + 1

/-- Python `round((net/pure)*100, 2)`: banker's rounding of the profit rate
`net*100/pure` at two decimals, returned as an exact rational. -/
def pyRound2Rate (net pure : ℤ) : ℚ := ((bankerRound (net * 10000) pure : ℤ) : ℚ) / 100

/-! ## `api_v1._safe_int` (claim C8)

```python
def _safe_int(value):
    try:
        if value is None: return 0
        if isinstance(value, int): return value
        s_val = str(value).replace(',', '').replace('+', '').strip()
        if not s_val: return 0
        return int(s_val)
    except ValueError:
        return 0
```
-/

/-- A Python value reaching `_safe_int`: `None`, an `int`, or a string. -/
inductive PyVal where
  | none : PyVal
  | int : ℤ → PyVal
  | str : List Char → PyVal
deriving DecidableEq

/-- Python `str.strip()`: drop leading and trailing whitespace. -/
def pyStrip (s : List Char) : List Char :=
  ((s.dropWhile Char.isWhitespace).reverse.dropWhile Char.isWhitespace).reverse

/-- Digits-only parse (the body of Python `int(...)` after the sign). -/
def parseDigits : List Char → Option ℕ
  | [] => Option.none
  | cs => cs.foldl (fun acc c =>
      match acc with
      | Option.none => Option.none
      | Option.some n => if c.isDigit then Option.some (n * 10 + (c.toNat - 48)) else Option.none)
      (Option.some 0)

/-- Python `int(s)` on a stripped string: optional sign, then digits;
`ValueError` is `Option.none`. -/
def pyParseInt : List Char → Option ℤ
  | '-' :: rest => (parseDigits rest).map fun n => -(n : ℤ)
  | '+' :: rest => (parseDigits rest).map fun n => (n : ℤ)
  | s => (parseDigits s).map fun n => (n : ℤ)

/-- `api_v1._safe_int`: strips commas and `+` (everywhere, as
`str.replace` does), keeps `-`, and returns `0` for `None`, empty or
unparsable input. -/
def safeInt : PyVal → ℤ
  | PyVal.none => 0
  | PyVal.int n => n
  | PyVal.str s =>
    let s' := pyStrip (s.filter fun c => !(c == ',' || c == '+'))
    if s'.isEmpty then 0 else (pyParseInt s').getD 0

/-! ## `api_v1.SmartRateLimiter` (claim C7)

```python
self.min_interval = 0.5
self.max_interval = 5.0
self.current_interval = 0.33
self.decay_rate = 0.95
self.penalty_multiplier = 1.5
def report_success(self):
    if self.current_interval > self.min_interval:
        self.current_interval = max(self.min_interval, self.current_interval * self.decay_rate)
def report_429(self):
    self.current_interval = min(self.max_interval, self.current_interval * self.penalty_multiplier)
```
-/

namespace SmartRateLimiter

def min_interval : ℚ := 1 / 2

def max_interval : ℚ := 5

/-- The constructor sets `current_interval = 0.33`, below `min_interval`. -/
def initial_interval : ℚ := 33 / 100

def decay_rate : ℚ := 19 / 20

def penalty_multiplier : ℚ := 3 / 2

/-- `report_success`: shrink the interval, but only when it is strictly
above the minimum. -/
def report_success (cur : ℚ) : ℚ :=
  if min_interval < cur then max min_interval (cur * decay_rate) else cur

/-- `report_429`: grow the interval, capped at the maximum. -/
def report_429 (cur : ℚ) : ℚ := min max_interval (cur * penalty_multiplier)

/-- The intervals the limiter can hold: the constructor's value, closed
under success and 429 reports. -/
inductive Reachable : ℚ → Prop
  | init : Reachable initial_interval
  | success {i : ℚ} : Reachable i → Reachable (report_success i)
  | rate429 {i : ℚ} : Reachable i → Reachable (report_429 i)

end SmartRateLimiter

/-! ## `database.BotDB.pop_command` (claim C6)

```python
c.execute("BEGIN IMMEDIATE")
c.execute("SELECT * FROM command_queue WHERE status='PENDING' ORDER BY id ASC LIMIT 1")
row = c.fetchone()
if row:
    c.execute("UPDATE command_queue SET status='DONE' WHERE id=?", (row['id'],))
    conn.commit()
    return dict(row)
conn.commit()
return None
```
The queue table is modelled as a row list; the `SELECT ... ORDER BY id ASC
LIMIT 1` is selection of a minimal-id PENDING row, and the `UPDATE` marks
every row carrying that id DONE (the id is the primary key, so there is
exactly one).
-/

inductive CmdStatus where
  | pending : CmdStatus
  | done : CmdStatus
deriving DecidableEq

structure CommandRow where
  id : ℕ
  cmd_type : List Char
  payload : List Char
  status : CmdStatus
deriving DecidableEq

/-- `SELECT * FROM command_queue WHERE status='PENDING' ORDER BY id ASC LIMIT 1`. -/
def selectOldestPending : List CommandRow → Option CommandRow
  | [] => Option.none
  | r :: rest =>
    match selectOldestPending rest with
    | Option.none => if r.status = CmdStatus.pending then Option.some r else Option.none
    | Option.some b =>
      if r.status = CmdStatus.pending then
        (if r.id ≤ b.id then Option.some r else Option.some b)
      else Option.some b

/-- `UPDATE command_queue SET status='DONE' WHERE id=?`. -/
def markDone (i : ℕ) (q : List CommandRow) : List CommandRow :=
  q.map fun r => if r.id = i then { r with status := CmdStatus.done } else r

/-- `BotDB.pop_command`: select the oldest PENDING row, mark it DONE and
return it, or return nothing when no PENDING row exists. -/
def popCommand (q : List CommandRow) : Option CommandRow × List CommandRow :=
  match selectOldestPending q with
  | Option.none => (Option.none, q)
  | Option.some c => (Option.some c, markDone c.id q)

/-! ## Association-list model of the Python dicts of `strategy.py`

`TRADING_STATE`, `RE_ENTRY_COOLDOWN` and `BUY_ATTEMPT_HISTORY` are string-keyed
dicts; they are modelled as association lists over `Code := List Char`.
-/

/-- A stock code (Python string). -/
abbrev Code := List Char

/-- Dict lookup. -/
def lookupK {α : Type} (k : Code) : List (Code × α) → Option α
  | [] => Option.none
  | kv :: rest => if kv.1 = k then Option.some kv.2 else lookupK k rest

/-- Dict deletion (`del d[k]`). -/
def eraseK {α : Type} (k : Code) (l : List (Code × α)) : List (Code × α) :=
  l.filter fun kv => decide (kv.1 ≠ k)

/-- Dict update (`d[k] = v`). -/
def setK {α : Type} (k : Code) (v : α) (l : List (Code × α)) : List (Code × α) :=
  (k, v) :: eraseK k l

/-! ## Position records and the Position Manager (claims C1, C3, C4)

The per-symbol dict entries of `TRADING_STATE` become `PositionState`;
the settings read by `manage_open_positions` become `ManageParams`.
-/

/-- One entry of `TRADING_STATE`. `custom_sl_rate` is `Option` because
reconciliation-created entries lack the key; `ord_no` likewise. -/
structure PositionState where
  status : List Char
  buy_price : ℤ
  buy_qty : ℤ
  trailing_active : Bool
  peak_profit_rate : ℚ
  current_profit_rate : ℚ
  custom_sl_rate : Option ℚ
  overnight_approved : Bool
  condition_from : List Char
  ord_no : Option (List Char)
deriving DecidableEq

/-- The settings snapshot read at the top of `manage_open_positions` and
`try_morning_liquidation`. -/
structure ManageParams where
  mock_trade : Bool
  global_sl : ℚ
  ts_start : ℚ
  ts_stop : ℚ
  time_cut_min : ℤ
  use_ai_sl : Bool
  auto_sell : Bool
  overnight_ids : List (List Char)
deriving DecidableEq

/-- Total fee+tax in won, truncated per component exactly as the source:
`int(pure*buy_fee) + int(eval*sell_fee) + int(eval*tax)` with the
mode-specific table (paper 0.35%/0.35%/0.15%, real 0.015%/0.015%/0.15%). -/
def feeCost (mock : Bool) (pureAmt evalAmt : ℤ) : ℤ :=
  if mock then
    pyIntMulRate pureAmt 35 10000 + pyIntMulRate evalAmt 35 10000 +
      pyIntMulRate evalAmt 15 10000
  else
    pyIntMulRate pureAmt 15 100000 + pyIntMulRate evalAmt 15 100000 +
      pyIntMulRate evalAmt 15 10000

/-- Net profit in won after fees, as computed by `manage_open_positions`. -/
def netProfit (mock : Bool) (buy_price buy_qty cur : ℤ) : ℤ :=
  cur * buy_qty - buy_price * buy_qty - feeCost mock (buy_price * buy_qty) (cur * buy_qty)

/-- The net-of-fees profit rate `(net_profit / pure_buy_amt) * 100`. -/
def profitRate (mock : Bool) (buy_price buy_qty cur : ℤ) : ℚ :=
  ((netProfit mock buy_price buy_qty cur : ℤ) : ℚ) / ((buy_price * buy_qty : ℤ) : ℚ) * 100

/-- The exit reasons produced by `manage_open_positions`. -/
inductive SellReason where
  | stopLoss : SellReason
  | timeCut : SellReason
  | takeProfit : SellReason
deriving DecidableEq

/-- The effective stop-loss rate of `manage_open_positions`:
`state['custom_sl_rate']` when AI stop-loss is enabled and the key exists,
else the global `STOP_LOSS_RATE`. -/
def applyStopLoss (p : ManageParams) (pos : PositionState) : ℚ :=
  if p.use_ai_sl = true ∧ pos.custom_sl_rate.isSome = true then
    pos.custom_sl_rate.getD p.global_sl
  else p.global_sl

/-- One `manage_open_positions` pass over a single position
(`strategy.py` lines 1259–1331), given the resolved current price and the
elapsed minutes since `order_time`. Returns the updated position record and
the sell reason of the first matching exit rule, if any. The order-sending
side effect is modelled separately (`manageSellEffect`). -/
def evalExit (p : ManageParams) (pos : PositionState) (cur : ℤ) (elapsed_min : ℚ) :
    PositionState × Option SellReason :=
  if containsSub maedo pos.status then (pos, Option.none)
  else if cur = 0 then (pos, Option.none)
  else if pos.buy_price = 0 ∨ pos.buy_qty = 0 then (pos, Option.none)
  else
    let pr := profitRate p.mock_trade pos.buy_price pos.buy_qty cur
    let rounded := pyRound2Rate (netProfit p.mock_trade pos.buy_price pos.buy_qty cur)
      (pos.buy_price * pos.buy_qty)
    let pos1 := { pos with current_profit_rate := rounded }
    if ¬ p.auto_sell then (pos1, Option.none)
    else
      let apply_sl := applyStopLoss p pos
      if pr ≤ apply_sl then (pos1, Option.some SellReason.stopLoss)
      else if (p.time_cut_min : ℚ) < elapsed_min ∧ pr < 1 / 2 then
        (pos1, Option.some SellReason.timeCut)
      else
        let pos2 := if ¬ pos1.trailing_active ∧ p.ts_start ≤ pr then
          { pos1 with trailing_active := true, peak_profit_rate := pr } else pos1
        if pos2.trailing_active then
          let pos3 := if pos2.peak_profit_rate < pr then
            { pos2 with peak_profit_rate := pr } else pos2
          if pr - pos3.peak_profit_rate ≤ p.ts_stop then
            (pos3, Option.some SellReason.takeProfit)
          else (pos3, Option.none)
        else (pos2, Option.none)

/-- The state change applied when a sell reason fired and the market-sell
order succeeded (`strategy.py` lines 1344–1345). -/
def manageSellEffect (pos : PositionState) (o : List Char) : PositionState :=
  { pos with status := stSellOrdered, ord_no := Option.some o }

/-- `cond_info.split(':')[0] if ':' in cond_info else '999'`. -/
def condIdOf (cond_info : List Char) : List Char :=
  if containsSub [':'] cond_info then cond_info.takeWhile (fun c => !(c == ':'))
  else ['9', '9', '9']

/-- The trigger set of `try_morning_liquidation` (`strategy.py` lines
1158–1160). -/
def isMorningTarget (ids : List (List Char)) (pos : PositionState) : Prop :=
  condIdOf pos.condition_from ∈ ids ∨ pos.overnight_approved = true ∨
    condIdOf pos.condition_from = ['기', '존', '보', '유'] ∨
    condIdOf pos.condition_from = ['외', '부', '매', '수', '/', '동', '기', '화']

instance (ids : List (List Char)) (pos : PositionState) :
    Decidable (isMorningTarget ids pos) := by
  unfold isMorningTarget; infer_instance

/-- One `try_morning_liquidation` pass over a single position
(`strategy.py` lines 1152–1193), given the resolved price and the sell
order result. The profit rate here is the source's
`((current_price - buy_price) / buy_price) * 100` — gross, no fees. -/
def morningStep (p : ManageParams) (pos : PositionState) (cur : ℤ)
    (ordNo : Option (List Char)) : PositionState :=
  if containsSub maedo pos.status || pos.trailing_active then pos
  else if ¬ isMorningTarget p.overnight_ids pos then pos
  else if pos.buy_qty ≤ 0 ∨ pos.buy_price ≤ 0 then pos
  else if cur = 0 then pos
  else
    let pr : ℚ := (((cur : ℚ) - (pos.buy_price : ℚ)) / (pos.buy_price : ℚ)) * 100
    if pr ≤ 0 then
      match ordNo with
      | Option.some o => { pos with status := stSellOrderedGap, ord_no := Option.some o }
      | Option.none => pos
    else
      { pos with trailing_active := true, peak_profit_rate := pr }

/-- Server-side update of an existing position during
`sync_balance_with_server` (`strategy.py` lines 843–850). -/
def reconUpdate (pos : PositionState) (pur rmnd : ℤ) (serverProfit : ℚ) : PositionState :=
  let pos1 := { pos with buy_price := pur, buy_qty := rmnd }
  let pos2 := if pos1.status = stBuyOrdered then { pos1 with status := stHeldFilled } else pos1
  if pos2.peak_profit_rate < serverProfit then
    { pos2 with peak_profit_rate := serverProfit } else pos2

/-- Position created by `sync_balance_with_server` for an unknown server
holding (`strategy.py` lines 852–861). -/
def reconCreate (pur rmnd : ℤ) (serverProfit : ℚ) (cond : List Char) : PositionState :=
  { status := stHeldSynced, buy_price := pur, buy_qty := rmnd,
    trailing_active := false, peak_profit_rate := max serverProfit 0,
    current_profit_rate := serverProfit, custom_sl_rate := Option.none,
    overnight_approved := false, condition_from := cond, ord_no := Option.none }

/-- Position restored from the Store plus the opening balance by
`_load_initial_balance` (`strategy.py` lines 804–817). -/
def restoreCreate (pur rmnd : ℤ) (profit : ℚ) (cond : List Char)
    (overnight : Bool) (customSl : Option ℚ) : PositionState :=
  { status := stHeldBalance, buy_price := pur, buy_qty := rmnd,
    trailing_active := false, peak_profit_rate := max profit 0,
    current_profit_rate := profit, custom_sl_rate := customSl,
    overnight_approved := overnight, condition_from := cond, ord_no := Option.none }

/-- Position created by a successful pipeline buy order
(`strategy.py` lines 1039–1047). -/
def pipelineCreate (cur qty : ℤ) (cond : List Char) (final_sl : ℚ)
    (o : List Char) : PositionState :=
  { status := stBuyOrdered, buy_price := cur, buy_qty := qty,
    trailing_active := false, peak_profit_rate := 0,
    current_profit_rate := 0, custom_sl_rate := Option.some final_sl,
    overnight_approved := false, condition_from := cond, ord_no := Option.some o }

/-- All ways a position record comes into existence. -/
inductive PosInit : PositionState → Prop
  | pipeline (cur qty : ℤ) (cond : List Char) (sl : ℚ) (o : List Char) :
      PosInit (pipelineCreate cur qty cond sl o)
  | recon (pur rmnd : ℤ) (sp : ℚ) (cond : List Char) :
      PosInit (reconCreate pur rmnd sp cond)
  | restore (pur rmnd : ℤ) (pr : ℚ) (cond : List Char) (ov : Bool) (sl : Option ℚ) :
      PosInit (restoreCreate pur rmnd pr cond ov sl)

/-- The operations of the engine that rewrite a position record in place:
a Position-Manager pass (with or without a successful sell order), a
morning-liquidation pass, and a reconciliation update. -/
inductive PosStep (p : ManageParams) : PositionState → PositionState → Prop
  | manage (pos : PositionState) (cur : ℤ) (e : ℚ) :
      PosStep p pos (evalExit p pos cur e).1
  | manageSell (pos : PositionState) (cur : ℤ) (e : ℚ) (r : SellReason) (o : List Char) :
      (evalExit p pos cur e).2 = Option.some r →
      PosStep p pos (manageSellEffect (evalExit p pos cur e).1 o)
  | morning (pos : PositionState) (cur : ℤ) (ordNo : Option (List Char)) :
      PosStep p pos (morningStep p pos cur ordNo)
  | recon (pos : PositionState) (pur rmnd : ℤ) (sp : ℚ) :
      PosStep p pos (reconUpdate pos pur rmnd sp)

/-- Position states reachable from creation through the modelled
operations. -/
def PosReachable (p : ManageParams) (s : PositionState) : Prop :=
  ∃ s0, PosInit s0 ∧ Relation.ReflTransGen (PosStep p) s0 s

/-- The specification's claimed invariant:
`trailing_active → peak_profit_rate ≥ trailing_start_rate`. -/
def claimedTrailingInv (p : ManageParams) (s : PositionState) : Prop :=
  s.trailing_active = true → p.ts_start ≤ s.peak_profit_rate

/-- The invariant the code actually maintains: an armed position's peak is
at least `trailing_start_rate` (Position-Manager arming) or at least
positive (morning-liquidation arming). -/
def trailingInvAmended (p : ManageParams) (s : PositionState) : Prop :=
  s.trailing_active = true → p.ts_start ≤ s.peak_profit_rate ∨ 0 < s.peak_profit_rate

/-! ## Reconciler deletion policy (claim C5)

`sync_balance_with_server`, `strategy.py` lines 864–891: for a local
position whose code is absent from the server balance, decide whether to
retain it, drop it silently (stale BUY_ORDERED), or drop it and install the
re-entry cooldown.
-/

/-- What the reconciler does with a locally-held position that the server
balance no longer lists. -/
inductive SyncAction where
  | keep : SyncAction
  | dropSilent : SyncAction
  | dropWithCooldown : SyncAction
deriving DecidableEq

/-- Seconds since local midnight. -/
abbrev DaySec := ℕ

def openingWindowStart : DaySec := 8 * 3600 + 50 * 60

def openingWindowEnd : DaySec := 9 * 3600 + 10 * 60

def daySafeStart : DaySec := 8 * 3600 + 30 * 60

def daySafeEnd : DaySec := 16 * 3600 + 30 * 60

/-- `08:50:00 <= now <= 09:10:00`. -/
def isMarketOpening (now : DaySec) : Prop :=
  openingWindowStart ≤ now ∧ now ≤ openingWindowEnd

instance (now : DaySec) : Decidable (isMarketOpening now) := by
  unfold isMarketOpening; infer_instance

/-- `08:30:00 <= now <= 16:30:00`. -/
def isDaytimeSafe (now : DaySec) : Prop :=
  daySafeStart ≤ now ∧ now ≤ daySafeEnd

instance (now : DaySec) : Decidable (isDaytimeSafe now) := by
  unfold isDaytimeSafe; infer_instance

/-- The decision of `sync_balance_with_server` for a local position absent
from the server balance, with `age_s` the seconds since `order_time`. -/
def syncAbsentDecision (now : DaySec) (status : List Char) (age_s : ℚ) : SyncAction :=
  if isMarketOpening now ∧ containsSub maedo status = false then SyncAction.keep
  else if ¬ isDaytimeSafe now ∧ containsSub maedo status = false then SyncAction.keep
  else if status = stBuyOrdered then
    (if 300 < age_s then SyncAction.dropSilent else SyncAction.keep)
  else SyncAction.dropWithCooldown

/-! ## Unfilled-order management (claim C9)

`manage_unfilled_orders`, `strategy.py` lines 1213–1239.
-/

/-- The action the unfilled-order manager takes on one position. -/
inductive UnfilledAction where
  | noAction : UnfilledAction
  | cancelBuyRemove : UnfilledAction
  | cancelSellRevert : UnfilledAction
deriving DecidableEq

/-- `status in ['매수주문', '매도주문', '매도주문중']` — the exact list the
source checks (note: no bulk or morning-gap sell status). -/
def unfilledManagedStatus (status : List Char) : Prop :=
  status = stBuyOrdered ∨ status = stSellOrderedPlain ∨ status = stSellOrdered

instance (status : List Char) : Decidable (unfilledManagedStatus status) := by
  unfold unfilledManagedStatus; infer_instance

/-- `last_cancel and (now - last_cancel).total_seconds() < 10`. -/
def recentCancel : Option ℚ → Bool
  | Option.some a => decide (a < 10)
  | Option.none => false

/-- The decision of `manage_unfilled_orders` for one position: `hasOrd` is
`ord_no` presence, `age_s` the order age in seconds, `lastCancelAge` the
seconds since the last cancel attempt (if any). -/
def unfilledDecision (status : List Char) (hasOrd : Bool) (age_s : ℚ)
    (lastCancelAge : Option ℚ) : UnfilledAction :=
  if unfilledManagedStatus status ∧ hasOrd = true then
    if 20 < age_s then
      if recentCancel lastCancelAge then UnfilledAction.noAction
      else if containsSub maesu status then UnfilledAction.cancelBuyRemove
      else UnfilledAction.cancelSellRevert
    else UnfilledAction.noAction
  else UnfilledAction.noAction

/-- The local-state effect of the cancel (`strategy.py` lines 1235–1238):
buy-cancel removes the position; sell-cancel reverts it to
`보유 (체결)` and clears the order id. -/
def applyUnfilledAction (positions : List (Code × PositionState)) (code : Code)
    (pos : PositionState) : UnfilledAction → List (Code × PositionState)
  | UnfilledAction.noAction => positions
  | UnfilledAction.cancelBuyRemove => eraseK code positions
  | UnfilledAction.cancelSellRevert =>
      setK code { pos with status := stHeldFilled, ord_no := Option.none } positions

/-! ## Engine state and the real-time account frame handler (claim C10)

`_handle_realtime_account`, `strategy.py` lines 1373–1380 (the `04`
balance-change branch), plus the reconciler's deletion effect (lines
888–891) for contrast.
-/

/-- An appended trade-log record (only its identity matters here). -/
structure TradeRecord where
  action : List Char
  code : Code
  qty : ℤ
  price : ℤ
deriving DecidableEq

/-- The mutable engine state touched by deletions: the positions dict, the
re-entry cooldown dict (expiry instants) and the appended trade log. -/
structure EngineState where
  positions : List (Code × PositionState)
  cooldown : List (Code × ℚ)
  trades : List TradeRecord
deriving DecidableEq

/-- Python `str.strip('AJ')` applied to the `9001` field. -/
def stripAJ (s : List Char) : List Char :=
  ((s.dropWhile fun c => c == 'A' || c == 'J').reverse.dropWhile
    fun c => c == 'A' || c == 'J').reverse

/-- The `04` branch of `_handle_realtime_account`: when the post-trade
holding quantity is 0 for a tracked symbol, delete the position; nothing
else changes. -/
def handleAccount04 (st : EngineState) (rawCode : List Char) (holding_qty : ℤ) :
    EngineState :=
  let code := stripAJ rawCode
  if (lookupK code st.positions).isSome then
    if holding_qty = 0 then { st with positions := eraseK code st.positions }
    else st
  else st

/-- The reconciler's deletion of a vanished position (`strategy.py` lines
888–891): remove it and install the re-entry cooldown expiring at
`expiry`. -/
def reconcilerDelete (st : EngineState) (code : Code) (expiry : ℚ) : EngineState :=
  let st1 := { st with positions := eraseK code st.positions }
  { st1 with cooldown := setK code expiry st1.cooldown }

/-! ## AI stop-loss sizing and the tail of the signal pipeline (claim C2)

`process_single_stock_signal`, `strategy.py` lines 986–1053: the vision
gate, quantity sizing, the AI stop-loss safety check, and the buy order.
-/

/-- The settings read by the pipeline tail. -/
structure PipelineCtx where
  mock_trade : Bool
  order_amount : ℤ
  global_sl : ℚ
  ai_safety_raw : ℚ
deriving DecidableEq

/-- `int((order_amount * 0.95) // current_price)`: floor of the exact
rational, via Euclidean division (`cur > 0` in every reachable call). -/
def buyQty (order_amount cur : ℤ) : ℤ := (order_amount * 95).ediv (100 * cur)

/-- Lines 1000–1027: given the AI stop price, either proceed with a final
stop-loss rate (`Option.some`) or reject the entry (`Option.none`).
When `ai_sl_price > 0` the net-of-fees loss rate at that price is computed
with the mode-specific fee table and accepted only inside
`[ai_safety_limit, 0)`; otherwise the global rate is used unchanged. -/
def aiStopLossSizing (ctx : PipelineCtx) (cur qty ai_sl_price : ℤ) : Option ℚ :=
  if 0 < ai_sl_price ∧ 0 < cur then
    let pureAmt := cur * qty
    let expSell := ai_sl_price * qty
    let cost := feeCost ctx.mock_trade pureAmt expSell
    let net := expSell - pureAmt - cost
    let calcRate : ℚ := ((net : ℤ) : ℚ) / ((pureAmt : ℤ) : ℚ) * 100
    let limit := if 0 < ctx.ai_safety_raw then -ctx.ai_safety_raw else ctx.ai_safety_raw
    if limit ≤ calcRate ∧ calcRate < 0 then
      Option.some (pyRound2Rate net pureAmt)
    else Option.none
  else Option.some ctx.global_sl

/-- The engine-state dicts the pipeline tail can touch, plus whether a buy
order was sent. -/
structure SignalState where
  positions : List (Code × PositionState)
  cooldown : List (Code × ℚ)
  attempts : List (Code × ℚ)
deriving DecidableEq

/-- The pipeline tail from the vision verdict onwards (`strategy.py` lines
986–1053). `now` is the wall-clock instant in seconds, `visionOk` and
`ai_sl_price` the vision verdict, `ordNo` the broker's response to the buy
order (consulted only if one is sent). Returns the new state and whether a
buy order was submitted. -/
def pipelineTail (ctx : PipelineCtx) (now : ℚ) (code : Code) (cond : List Char)
    (cur : ℤ) (visionOk : Bool) (ai_sl_price : ℤ) (ordNo : Option (List Char))
    (st : SignalState) : SignalState × Bool :=
  if visionOk = false then
    ({ st with cooldown := setK code (now + 10 * 60) st.cooldown }, false)
  else
    let qty := buyQty ctx.order_amount cur
    if qty = 0 then (st, false)
    else
      match aiStopLossSizing ctx cur qty ai_sl_price with
      | Option.none => (st, false)
      | Option.some final_sl =>
        let st1 := { st with attempts := setK code now st.attempts }
        match ordNo with
        | Option.some o =>
          let newPositions := setK code (pipelineCreate cur qty cond final_sl o) st1.positions
          ({ st1 with positions := newPositions }, true)
        | Option.none => (st1, true)

/-! ## Shared helper lemmas -/

theorem lookupK_eraseK_self {α : Type} (k : Code) (l : List (Code × α)) :
    lookupK k (eraseK k l) = Option.none := by
  induction l with
  | nil => rfl
  | cons kv rest ih =>
    by_cases h : kv.1 = k
    · simpa [eraseK, List.filter, h] using ih
    · simpa [eraseK, List.filter, h, lookupK] using ih

theorem lookupK_eraseK_ne {α : Type} {k k2 : Code} (h : k2 ≠ k) (l : List (Code × α)) :
    lookupK k2 (eraseK k l) = lookupK k2 l := by
  induction l with
  | nil => rfl
  | cons kv rest ih =>
    rw [eraseK, List.filter_cons]
    by_cases hk : kv.1 = k
    · have hcond : decide (kv.1 ≠ k) = false := by simp [hk]
      rw [hcond]
      have hne : ¬ kv.1 = k2 := by
        rw [hk]
        exact fun he => h he.symm
      have hr : lookupK k2 (kv :: rest) = lookupK k2 rest := by
        simp only [lookupK, if_neg hne]
      rw [hr, if_neg (by simp : ¬ false = true)]
      exact ih
    · have hcond : decide (kv.1 ≠ k) = true := by simp [hk]
      rw [hcond, if_pos rfl]
      simp only [lookupK]
      by_cases hk2 : kv.1 = k2
      · rw [if_pos hk2, if_pos hk2]
      · rw [if_neg hk2, if_neg hk2]
        exact ih

theorem lookupK_setK_self {α : Type} (k : Code) (v : α) (l : List (Code × α)) :
    lookupK k (setK k v l) = Option.some v := by
  simp [setK, lookupK]

theorem lookupK_setK_ne {α : Type} {k k2 : Code} (h : k2 ≠ k) (v : α)
    (l : List (Code × α)) :
    lookupK k2 (setK k v l) = lookupK k2 l := by
  have : ¬ k = k2 := fun he => h he.symm
  simp [setK, lookupK, this, lookupK_eraseK_ne h]

/-! ## Claim C8 — `_safe_int` sign preservation -/

/-- C8: the numeric parsing helper strips commas and leading `+` but
preserves `-`: `_safe_int("-12,345") = -12345`, `_safe_int("+123") = 123`,
`_safe_int(" ") = 0`, `_safe_int(None) = 0`. -/
theorem c8_safe_int_sign_preservation :
    safeInt (PyVal.str ['-', '1', '2', ',', '3', '4', '5']) = -12345 ∧
    safeInt (PyVal.str ['+', '1', '2', '3']) = 123 ∧
    safeInt (PyVal.str [' ']) = 0 ∧
    safeInt PyVal.none = 0 := by
  decide

/-! ## Claim C5 — opening-window protection in the reconciler -/

/-- C5 counterexample: at 08:55, inside the claimed protected window, a
local position in the `매도주문중` (SELL_ORDERED) state that is absent from
the server balance IS deleted (with a cooldown) by
`sync_balance_with_server` — the claim's "never deleted within the
window" fails for `SELL_*` statuses. -/
theorem c5_sell_state_deleted_in_window_counterexample :
    isMarketOpening (8 * 3600 + 55 * 60) ∧
    syncAbsentDecision (8 * 3600 + 55 * 60) stSellOrdered 0 =
      SyncAction.dropWithCooldown := by
  constructor
  · decide
  · have h1 : containsSub maedo stSellOrdered = true := rfl
    have h2 : stSellOrdered ≠ stBuyOrdered := by decide
    have h3 : isDaytimeSafe (8 * 3600 + 55 * 60) := by decide
    simp [syncAbsentDecision, h1, h2, h3]

/-- C5 amended: during a reconciliation run whose local time lies in
08:50–09:10, a local position absent from the server balance whose status
is not a `SELL_*` state (does not contain `"매도"`) is never deleted. -/
theorem c5_opening_window_protection_amended (now : DaySec) (status : List Char)
    (age_s : ℚ) (hwin : isMarketOpening now)
    (hsell : containsSub maedo status = false) :
    syncAbsentDecision now status age_s = SyncAction.keep := by
  unfold syncAbsentDecision
  rw [if_pos ⟨hwin, hsell⟩]

/-- C5 witness: at 09:00:00 a HELD position absent from the balance is
kept. -/
theorem c5_opening_window_protection_witness :
    syncAbsentDecision (9 * 3600) stHeldFilled 1000 = SyncAction.keep :=
  c5_opening_window_protection_amended (9 * 3600) stHeldFilled 1000 (by decide) rfl

/-! ## Claim C9 — unfilled-order management -/

/-- C9 counterexample: a bulk-sell order (`매도주문중(일괄)`) and a
morning-gap sell order (`매도주문중(시초가손절)`) with an active order id,
30 seconds old and never cancel-attempted, are NOT cancelled:
`manage_unfilled_orders` only matches the statuses
`['매수주문', '매도주문', '매도주문중']` exactly. -/
theorem c9_bulk_and_gap_not_managed_counterexample :
    unfilledDecision stSellOrderedBulk true 30 Option.none = UnfilledAction.noAction ∧
    unfilledDecision stSellOrderedGap true 30 Option.none = UnfilledAction.noAction := by
  have hb : ¬ unfilledManagedStatus stSellOrderedBulk := by decide
  have hg : ¬ unfilledManagedStatus stSellOrderedGap := by decide
  constructor <;> simp [unfilledDecision, hb, hg]

/-- C9 amended: for positions whose status is exactly `매수주문`,
`매도주문` or `매도주문중` with an active order id, once the order is older
than 20 seconds and no cancel was attempted within the last 10 seconds, a
cancel is issued; a buy-cancel removes the position from local state and a
sell-cancel reverts it to `보유 (체결)` with the order id cleared. Bulk
(`매도주문중(일괄)`) and morning-gap (`매도주문중(시초가손절)`) orders are
not managed. -/
theorem c9_unfilled_order_management_amended (status : List Char) (age_s : ℚ)
    (lastCancelAge : Option ℚ) (positions : List (Code × PositionState))
    (code : Code) (pos : PositionState)
    (hmanaged : unfilledManagedStatus status) (hage : 20 < age_s)
    (hcancel : recentCancel lastCancelAge = false) :
    (status = stBuyOrdered →
      unfilledDecision status true age_s lastCancelAge = UnfilledAction.cancelBuyRemove ∧
      lookupK code (applyUnfilledAction positions code pos
        (unfilledDecision status true age_s lastCancelAge)) = Option.none) ∧
    ((status = stSellOrderedPlain ∨ status = stSellOrdered) →
      unfilledDecision status true age_s lastCancelAge = UnfilledAction.cancelSellRevert ∧
      lookupK code (applyUnfilledAction positions code pos
        (unfilledDecision status true age_s lastCancelAge)) =
        Option.some { pos with status := stHeldFilled, ord_no := Option.none }) := by
  have hdec : unfilledDecision status true age_s lastCancelAge =
      (if containsSub maesu status then UnfilledAction.cancelBuyRemove
       else UnfilledAction.cancelSellRevert) := by
    unfold unfilledDecision
    rw [if_pos ⟨hmanaged, rfl⟩, if_pos hage, hcancel]
    simp
  constructor
  · intro hbuy
    subst hbuy
    have hmaesu : containsSub maesu stBuyOrdered = true := rfl
    rw [hdec, hmaesu]
    exact ⟨rfl, by simp [applyUnfilledAction, lookupK_eraseK_self]⟩
  · intro hsell
    have hmaesu : containsSub maesu status = false := by
      rcases hsell with h | h <;> subst h <;> rfl
    rw [hdec, hmaesu]
    exact ⟨rfl, by simp [applyUnfilledAction, lookupK_setK_self]⟩

/-- C9 witness: a 30-second-old buy order is cancelled and its position
removed; a 30-second-old plain sell order is cancelled and reverted. -/
theorem c9_unfilled_order_management_witness :
    (unfilledDecision stBuyOrdered true 30 Option.none = UnfilledAction.cancelBuyRemove) ∧
    (unfilledDecision stSellOrdered true 30 (Option.some 15) =
      UnfilledAction.cancelSellRevert) := by
  refine ⟨((c9_unfilled_order_management_amended stBuyOrdered 30 Option.none [] []
    { status := stBuyOrdered, buy_price := 100, buy_qty := 1, trailing_active := false,
      peak_profit_rate := 0, current_profit_rate := 0, custom_sl_rate := Option.none,
      overnight_approved := false, condition_from := [], ord_no := Option.some ['1'] }
    (by decide) (by norm_num) rfl).1 rfl).1, ?_⟩
  exact ((c9_unfilled_order_management_amended stSellOrdered 30 (Option.some 15) [] []
    { status := stSellOrdered, buy_price := 100, buy_qty := 1, trailing_active := false,
      peak_profit_rate := 0, current_profit_rate := 0, custom_sl_rate := Option.none,
      overnight_approved := false, condition_from := [], ord_no := Option.some ['1'] }
    (by decide) (by norm_num) (by norm_num [recentCancel])).2 (Or.inr rfl)).1

/-! ## Claim C10 — the `04` account-frame handler deletes and nothing else -/

/-- C10: when a type-`04` real-time account frame reports a post-trade
holding quantity of 0 for a locally tracked symbol, `_handle_realtime_account`
deletes exactly that position and changes nothing else: no re-entry
cooldown is installed, no trade record is appended, and every other
position is untouched — in contrast to the reconciler's deletion, which
also installs a cooldown. -/
theorem c10_account04_deletion_frame (st : EngineState) (rawCode : List Char)
    (h : (lookupK (stripAJ rawCode) st.positions).isSome = true) :
    (handleAccount04 st rawCode 0).positions =
      eraseK (stripAJ rawCode) st.positions ∧
    lookupK (stripAJ rawCode) (handleAccount04 st rawCode 0).positions = Option.none ∧
    (∀ c, c ≠ stripAJ rawCode →
      lookupK c (handleAccount04 st rawCode 0).positions = lookupK c st.positions) ∧
    (handleAccount04 st rawCode 0).cooldown = st.cooldown ∧
    (handleAccount04 st rawCode 0).trades = st.trades ∧
    (∀ expiry : ℚ, lookupK (stripAJ rawCode)
      (reconcilerDelete st (stripAJ rawCode) expiry).cooldown = Option.some expiry) := by
  have hh : handleAccount04 st rawCode 0 =
      { st with positions := eraseK (stripAJ rawCode) st.positions } := by
    unfold handleAccount04
    simp [h]
  refine ⟨by rw [hh], ?_, ?_, by rw [hh], by rw [hh], ?_⟩
  · rw [hh]
    exact lookupK_eraseK_self _ _
  · intro c hc
    rw [hh]
    exact lookupK_eraseK_ne hc _
  · intro expiry
    unfold reconcilerDelete
    exact lookupK_setK_self _ _ _

/-- C10 witness: a concrete two-position state; the frame for code `A0001`
with quantity 0 removes `0001` and leaves the cooldown table alone. -/
theorem c10_account04_deletion_frame_witness :
    lookupK ['0', '0', '0', '1']
      (handleAccount04
        { positions := [(['0', '0', '0', '1'],
            { status := stHeldFilled, buy_price := 100, buy_qty := 1,
              trailing_active := false, peak_profit_rate := 0,
              current_profit_rate := 0, custom_sl_rate := Option.none,
              overnight_approved := false, condition_from := [],
              ord_no := Option.none })],
          cooldown := [], trades := [] }
        ['A', '0', '0', '0', '1'] 0).positions = Option.none :=
  (c10_account04_deletion_frame
    { positions := [(['0', '0', '0', '1'],
        { status := stHeldFilled, buy_price := 100, buy_qty := 1,
          trailing_active := false, peak_profit_rate := 0,
          current_profit_rate := 0, custom_sl_rate := Option.none,
          overnight_approved := false, condition_from := [],
          ord_no := Option.none })],
      cooldown := [], trades := [] }
    ['A', '0', '0', '0', '1'] (by decide)).2.1

/-! ## Claim C7 — the adaptive rate limiter -/

/-- C7 counterexample: the limiter's constructor sets
`current_interval = 0.33`, strictly below the claimed 0.5-second minimum,
and because `report_success` only acts when the interval is strictly above
the minimum, a success report leaves 0.33 unchanged instead of the claimed
`max(0.5, prior × 0.95)`. -/
theorem c7_interval_below_min_counterexample :
    SmartRateLimiter.Reachable SmartRateLimiter.initial_interval ∧
    ¬ SmartRateLimiter.min_interval ≤ SmartRateLimiter.initial_interval ∧
    SmartRateLimiter.report_success SmartRateLimiter.initial_interval =
      SmartRateLimiter.initial_interval ∧
    SmartRateLimiter.report_success SmartRateLimiter.initial_interval ≠
      max SmartRateLimiter.min_interval
        (SmartRateLimiter.initial_interval * SmartRateLimiter.decay_rate) := by
  refine ⟨SmartRateLimiter.Reachable.init, ?_, ?_, ?_⟩ <;>
    norm_num [SmartRateLimiter.report_success, SmartRateLimiter.min_interval,
      SmartRateLimiter.initial_interval, SmartRateLimiter.decay_rate]

/-- C7 amended: (i) after `k` consecutive `report_429` calls from any
interval `i ≤ 5`, the interval is `min(5, i × 1.5^k)`; (ii) after `k`
consecutive `report_success` calls from any interval `i ≥ 0.5`, it is
`max(0.5, i × 0.95^k)`; (iii) every reachable interval lies in
`[0.33, 5]` — the lower bound is the constructor's 0.33, not the claimed
0.5, and success reports never lift it to 0.5. -/
theorem c7_adaptive_limiter_amended :
    (∀ i : ℚ, i ≤ SmartRateLimiter.max_interval → ∀ k : ℕ,
      SmartRateLimiter.report_429^[k] i =
        min SmartRateLimiter.max_interval (i * SmartRateLimiter.penalty_multiplier ^ k)) ∧
    (∀ i : ℚ, SmartRateLimiter.min_interval ≤ i → ∀ k : ℕ,
      SmartRateLimiter.report_success^[k] i =
        max SmartRateLimiter.min_interval (i * SmartRateLimiter.decay_rate ^ k)) ∧
    (∀ i : ℚ, SmartRateLimiter.Reachable i →
      SmartRateLimiter.initial_interval ≤ i ∧ i ≤ SmartRateLimiter.max_interval) := by
  refine ⟨?_, ?_, ?_⟩
  · intro i hi k
    induction k with
    | zero => simpa using (min_eq_right hi).symm
    | succ k ih =>
      rw [Function.iterate_succ_apply', ih, SmartRateLimiter.report_429,
        min_mul_of_nonneg _ _
          (by norm_num [SmartRateLimiter.penalty_multiplier] :
            (0 : ℚ) ≤ SmartRateLimiter.penalty_multiplier),
        ← min_assoc]
      have hmm : min SmartRateLimiter.max_interval
          (SmartRateLimiter.max_interval * SmartRateLimiter.penalty_multiplier) =
          SmartRateLimiter.max_interval := by
        norm_num [SmartRateLimiter.max_interval, SmartRateLimiter.penalty_multiplier]
      rw [hmm, mul_assoc, ← pow_succ]
  · intro i hi k
    induction k with
    | zero => simpa using (max_eq_right hi).symm
    | succ k ih =>
      rw [Function.iterate_succ_apply', ih, SmartRateLimiter.report_success]
      have hd0 : (0 : ℚ) < SmartRateLimiter.decay_rate := by
        norm_num [SmartRateLimiter.decay_rate]
      have hd1 : SmartRateLimiter.decay_rate ≤ 1 := by
        norm_num [SmartRateLimiter.decay_rate]
      have hmin0 : (0 : ℚ) < SmartRateLimiter.min_interval := by
        norm_num [SmartRateLimiter.min_interval]
      by_cases hcase : i * SmartRateLimiter.decay_rate ^ k ≤ SmartRateLimiter.min_interval
      · have hmax : max SmartRateLimiter.min_interval (i * SmartRateLimiter.decay_rate ^ k) =
            SmartRateLimiter.min_interval := max_eq_left hcase
        rw [hmax, if_neg (lt_irrefl _)]
        have hle : i * SmartRateLimiter.decay_rate ^ (k + 1) ≤ SmartRateLimiter.min_interval := by
          calc i * SmartRateLimiter.decay_rate ^ (k + 1)
              = i * SmartRateLimiter.decay_rate ^ k * SmartRateLimiter.decay_rate := by
                rw [mul_assoc, pow_succ]
            _ ≤ SmartRateLimiter.min_interval * 1 := by
                apply mul_le_mul hcase hd1 (le_of_lt hd0)
                exact le_of_lt hmin0
            _ = SmartRateLimiter.min_interval := mul_one _
        exact (max_eq_left hle).symm
      · push_neg at hcase
        have hmax : max SmartRateLimiter.min_interval (i * SmartRateLimiter.decay_rate ^ k) =
            i * SmartRateLimiter.decay_rate ^ k := max_eq_right (le_of_lt hcase)
        rw [hmax, if_pos hcase, mul_assoc, ← pow_succ]
  · intro i hre
    induction hre with
    | init =>
      norm_num [SmartRateLimiter.initial_interval, SmartRateLimiter.max_interval]
    | @success j hre ih =>
      have hj0 : (0 : ℚ) ≤ j :=
        le_trans (by norm_num [SmartRateLimiter.initial_interval]) ih.1
      unfold SmartRateLimiter.report_success
      by_cases hcase : SmartRateLimiter.min_interval < j
      · rw [if_pos hcase]
        have h1 : SmartRateLimiter.initial_interval ≤ SmartRateLimiter.min_interval := by
          norm_num [SmartRateLimiter.initial_interval, SmartRateLimiter.min_interval]
        have h2 : j * SmartRateLimiter.decay_rate ≤ j :=
          mul_le_of_le_one_right hj0 (by norm_num [SmartRateLimiter.decay_rate])
        refine ⟨le_trans h1 (le_max_left _ _), max_le ?_ (le_trans h2 ih.2)⟩
        norm_num [SmartRateLimiter.min_interval, SmartRateLimiter.max_interval]
      · rw [if_neg hcase]
        exact ih
    | @rate429 j hre ih =>
      have hj0 : (0 : ℚ) ≤ j :=
        le_trans (by norm_num [SmartRateLimiter.initial_interval]) ih.1
      unfold SmartRateLimiter.report_429
      have h2 : j ≤ j * SmartRateLimiter.penalty_multiplier :=
        le_mul_of_one_le_right hj0 (by norm_num [SmartRateLimiter.penalty_multiplier])
      refine ⟨le_min ?_ (le_trans ih.1 h2), min_le_left _ _⟩
      norm_num [SmartRateLimiter.initial_interval, SmartRateLimiter.max_interval]

/-- C7 witness: the formulas applied at concrete points — two 429 reports
from 0.33, two success reports from 3 s, and the bounds at the initial
interval. -/
theorem c7_adaptive_limiter_witness :
    SmartRateLimiter.report_429^[2] (33 / 100) =
      min SmartRateLimiter.max_interval ((33 / 100) * SmartRateLimiter.penalty_multiplier ^ 2) ∧
    SmartRateLimiter.report_success^[2] 3 =
      max SmartRateLimiter.min_interval (3 * SmartRateLimiter.decay_rate ^ 2) ∧
    (SmartRateLimiter.initial_interval ≤ SmartRateLimiter.initial_interval ∧
      SmartRateLimiter.initial_interval ≤ SmartRateLimiter.max_interval) :=
  ⟨c7_adaptive_limiter_amended.1 (33 / 100)
      (by norm_num [SmartRateLimiter.max_interval]) 2,
    c7_adaptive_limiter_amended.2.1 3
      (by norm_num [SmartRateLimiter.min_interval]) 2,
    c7_adaptive_limiter_amended.2.2 SmartRateLimiter.initial_interval
      SmartRateLimiter.Reachable.init⟩

/-! ## Claim C6 — atomic `pop_command` -/

theorem selectOldestPending_mem {q : List CommandRow} {c : CommandRow}
    (h : selectOldestPending q = Option.some c) :
    c ∈ q ∧ c.status = CmdStatus.pending := by
  induction q generalizing c with
  | nil => simp [selectOldestPending] at h
  | cons r rest ih =>
    rw [selectOldestPending] at h
    cases hsel : selectOldestPending rest with
    | none =>
      rw [hsel] at h
      by_cases hr : r.status = CmdStatus.pending
      · rw [if_pos hr] at h
        obtain rfl := Option.some.inj h
        exact ⟨List.mem_cons_self _ _, hr⟩
      · rw [if_neg hr] at h
        exact absurd h (by simp)
    | some b =>
      rw [hsel] at h
      simp only [] at h
      have hb := ih hsel
      by_cases hr : r.status = CmdStatus.pending
      · rw [if_pos hr] at h
        by_cases hid : r.id ≤ b.id
        · rw [if_pos hid] at h
          obtain rfl := Option.some.inj h
          exact ⟨List.mem_cons_self _ _, hr⟩
        · rw [if_neg hid] at h
          obtain rfl := Option.some.inj h
          exact ⟨List.mem_cons_of_mem _ hb.1, hb.2⟩
      · rw [if_neg hr] at h
        obtain rfl := Option.some.inj h
        exact ⟨List.mem_cons_of_mem _ hb.1, hb.2⟩

theorem selectOldestPending_eq_none_iff (q : List CommandRow) :
    selectOldestPending q = Option.none ↔
      ∀ r ∈ q, r.status ≠ CmdStatus.pending := by
  induction q with
  | nil => simp [selectOldestPending]
  | cons r rest ih =>
    rw [selectOldestPending]
    cases hsel : selectOldestPending rest with
    | none =>
      by_cases hr : r.status = CmdStatus.pending
      · rw [if_pos hr]
        constructor
        · intro h
          exact absurd h (by simp)
        · intro h
          exact absurd hr (h r (List.mem_cons_self r rest))
      · rw [if_neg hr]
        constructor
        · intro _ x hx
          rcases List.mem_cons.mp hx with h1 | h2
          · rw [h1]
            exact hr
          · exact (ih.mp hsel) x h2
        · intro _
          rfl
    | some b =>
      simp only []
      have hb := selectOldestPending_mem hsel
      constructor
      · intro h
        by_cases hr : r.status = CmdStatus.pending
        · rw [if_pos hr] at h
          by_cases hid : r.id ≤ b.id
          · rw [if_pos hid] at h
            exact absurd h (by simp)
          · rw [if_neg hid] at h
            exact absurd h (by simp)
        · rw [if_neg hr] at h
          exact absurd h (by simp)
      · intro h
        exact absurd hb.2 (h b (List.mem_cons_of_mem r hb.1))

theorem selectOldestPending_min {q : List CommandRow} {c : CommandRow}
    (h : selectOldestPending q = Option.some c) :
    ∀ r ∈ q, r.status = CmdStatus.pending → c.id ≤ r.id := by
  induction q generalizing c with
  | nil => simp [selectOldestPending] at h
  | cons r rest ih =>
    rw [selectOldestPending] at h
    cases hsel : selectOldestPending rest with
    | none =>
      rw [hsel] at h
      by_cases hr : r.status = CmdStatus.pending
      · rw [if_pos hr] at h
        obtain rfl := Option.some.inj h
        intro x hx hpx
        rcases List.mem_cons.mp hx with h1 | h2
        · rw [h1]
        · exact absurd hpx ((selectOldestPending_eq_none_iff rest).mp hsel x h2)
      · rw [if_neg hr] at h
        exact absurd h (by simp)
    | some b =>
      rw [hsel] at h
      simp only [] at h
      have hmin := ih hsel
      by_cases hr : r.status = CmdStatus.pending
      · rw [if_pos hr] at h
        by_cases hid : r.id ≤ b.id
        · rw [if_pos hid] at h
          obtain rfl := Option.some.inj h
          intro x hx hpx
          rcases List.mem_cons.mp hx with h1 | h2
          · rw [h1]
          · exact le_trans hid (hmin x h2 hpx)
        · rw [if_neg hid] at h
          obtain rfl := Option.some.inj h
          push_neg at hid
          intro x hx hpx
          rcases List.mem_cons.mp hx with h1 | h2
          · rw [h1]
            exact le_of_lt hid
          · exact hmin x h2 hpx
      · rw [if_neg hr] at h
        obtain rfl := Option.some.inj h
        intro x hx hpx
        rcases List.mem_cons.mp hx with h1 | h2
        · rw [h1] at hpx
          exact absurd hpx hr
        · exact hmin x h2 hpx

theorem markDone_mem_of_ne {q : List CommandRow} {r : CommandRow} {i : ℕ}
    (hr : r ∈ q) (hne : r.id ≠ i) : r ∈ markDone i q := by
  have : r = (fun x => if x.id = i then { x with status := CmdStatus.done } else x) r := by
    simp [hne]
  rw [markDone]
  exact this ▸ List.mem_map_of_mem _ hr

theorem markDone_done_mem {q : List CommandRow} {c : CommandRow} (hc : c ∈ q) :
    { c with status := CmdStatus.done } ∈ markDone c.id q := by
  have : { c with status := CmdStatus.done } =
      (fun x => if x.id = c.id then { x with status := CmdStatus.done } else x) c := by
    simp
  rw [markDone]
  exact this ▸ List.mem_map_of_mem _ hc

theorem markDone_id_status {q : List CommandRow} {i : ℕ} :
    ∀ r2 ∈ markDone i q, r2.id = i → r2.status = CmdStatus.done := by
  intro r2 hr2 hid
  rw [markDone] at hr2
  obtain ⟨r, hr, hmap⟩ := List.mem_map.mp hr2
  by_cases h : r.id = i
  · rw [if_pos h] at hmap
    rw [← hmap]
  · rw [if_neg h] at hmap
    rw [← hmap] at hid
    exact absurd hid h

/-- C6: `pop_command` atomically selects the PENDING command with the
smallest id, marks exactly that row DONE, and returns it; with no PENDING
row it returns `None` and leaves the queue unchanged; any row it returns
is marked DONE in the resulting queue (all other rows untouched), so a
second call returns a different row or `None` — each PENDING command is
observed by exactly one `pop_command` call. -/
theorem c6_pop_command_atomic (q : List CommandRow) :
    ((popCommand q).1 = Option.none ↔ ∀ r ∈ q, r.status ≠ CmdStatus.pending) ∧
    ((popCommand q).1 = Option.none → (popCommand q).2 = q) ∧
    (∀ c, (popCommand q).1 = Option.some c →
      c ∈ q ∧ c.status = CmdStatus.pending ∧
      (∀ r ∈ q, r.status = CmdStatus.pending → c.id ≤ r.id) ∧
      (∀ r ∈ q, r.id ≠ c.id → r ∈ (popCommand q).2) ∧
      ({ c with status := CmdStatus.done } ∈ (popCommand q).2) ∧
      (∀ r2 ∈ (popCommand q).2, r2.id = c.id → r2.status = CmdStatus.done) ∧
      (∀ c2, (popCommand (popCommand q).2).1 = Option.some c2 → c2.id ≠ c.id)) := by
  refine ⟨?_, ?_, ?_⟩
  · rw [popCommand]
    cases hsel : selectOldestPending q with
    | none =>
      simpa using (selectOldestPending_eq_none_iff q).mp hsel
    | some b =>
      have hb := selectOldestPending_mem hsel
      simp only []
      constructor
      · intro h
        exact absurd h (by simp)
      · intro h
        exact absurd hb.2 (h b hb.1)
  · rw [popCommand]
    cases hsel : selectOldestPending q with
    | none =>
      intro _
      rfl
    | some b =>
      simp only []
      intro h
      exact absurd h (by simp)
  · intro c hc
    rw [popCommand] at hc ⊢
    cases hsel : selectOldestPending q with
    | none =>
      rw [hsel] at hc
      simp only [] at hc
      exact absurd hc (by simp)
    | some b =>
      rw [hsel] at hc
      simp only [] at hc ⊢
      obtain rfl : c = b := (Option.some.inj hc).symm
      have hmem := selectOldestPending_mem hsel
      refine ⟨hmem.1, hmem.2, selectOldestPending_min hsel, ?_, ?_, ?_, ?_⟩
      · intro r hr hne
        exact markDone_mem_of_ne hr hne
      · exact markDone_done_mem hmem.1
      · exact markDone_id_status
      · intro c2 hc2
        rw [popCommand] at hc2
        cases hsel2 : selectOldestPending (markDone c.id q) with
        | none =>
          rw [hsel2] at hc2
          simp only [] at hc2
          exact absurd hc2 (by simp)
        | some b2 =>
          rw [hsel2] at hc2
          simp only [] at hc2
          obtain rfl : c2 = b2 := (Option.some.inj hc2).symm
          have hmem2 := selectOldestPending_mem hsel2
          intro hid
          exact absurd (markDone_id_status c2 hmem2.1 hid)
            (by rw [hmem2.2]; simp)

/-- C6 witness: on the queue `[id 2 PENDING, id 1 PENDING]` the pop
returns row 1 and its DONE copy is in the resulting queue. -/
theorem c6_pop_command_atomic_witness :
    ({ id := 1, cmd_type := ['B'], payload := [], status := CmdStatus.done } : CommandRow) ∈
      (popCommand
        [{ id := 2, cmd_type := ['B'], payload := [], status := CmdStatus.pending },
         { id := 1, cmd_type := ['B'], payload := [], status := CmdStatus.pending }]).2 :=
  ((c6_pop_command_atomic
      [{ id := 2, cmd_type := ['B'], payload := [], status := CmdStatus.pending },
       { id := 1, cmd_type := ['B'], payload := [], status := CmdStatus.pending }]).2.2
    { id := 1, cmd_type := ['B'], payload := [], status := CmdStatus.pending }
    (by decide)).2.2.2.2.1

/-! ## Helper lemmas on `evalExit` (Position Manager) -/

section EvalExitLemmas

variable (p : ManageParams) (pos : PositionState) (cur : ℤ) (e : ℚ)

theorem evalExit_stopLoss (hst : containsSub maedo pos.status = false)
    (hcur : ¬ cur = 0) (hbpq : ¬ (pos.buy_price = 0 ∨ pos.buy_qty = 0))
    (hauto : p.auto_sell = true)
    (hsl : profitRate p.mock_trade pos.buy_price pos.buy_qty cur ≤ applyStopLoss p pos) :
    (evalExit p pos cur e).2 = Option.some SellReason.stopLoss := by
  simp only [evalExit, hst, Bool.false_eq_true, if_false, if_neg hcur, if_neg hbpq,
    hauto, not_true, if_neg (by simp : ¬ (False : Prop)), if_pos hsl]

theorem evalExit_timeCut (hst : containsSub maedo pos.status = false)
    (hcur : ¬ cur = 0) (hbpq : ¬ (pos.buy_price = 0 ∨ pos.buy_qty = 0))
    (hauto : p.auto_sell = true)
    (hsl : applyStopLoss p pos < profitRate p.mock_trade pos.buy_price pos.buy_qty cur)
    (htc : (p.time_cut_min : ℚ) < e)
    (hpr : profitRate p.mock_trade pos.buy_price pos.buy_qty cur < 1 / 2) :
    (evalExit p pos cur e).2 = Option.some SellReason.timeCut := by
  have hcond : (p.time_cut_min : ℚ) < e ∧
      profitRate p.mock_trade pos.buy_price pos.buy_qty cur < 1 / 2 := ⟨htc, hpr⟩
  simp only [evalExit, hst, Bool.false_eq_true, if_false, if_neg hcur, if_neg hbpq,
    hauto, not_true, if_neg (by simp : ¬ (False : Prop)),
    if_neg (not_le.mpr hsl), if_pos hcond]

theorem evalExit_arm (hst : containsSub maedo pos.status = false)
    (hcur : ¬ cur = 0) (hbpq : ¬ (pos.buy_price = 0 ∨ pos.buy_qty = 0))
    (hauto : p.auto_sell = true)
    (hsl : applyStopLoss p pos < profitRate p.mock_trade pos.buy_price pos.buy_qty cur)
    (htc : ¬ ((p.time_cut_min : ℚ) < e ∧
      profitRate p.mock_trade pos.buy_price pos.buy_qty cur < 1 / 2))
    (hta : pos.trailing_active = false)
    (harm : p.ts_start ≤ profitRate p.mock_trade pos.buy_price pos.buy_qty cur) :
    (evalExit p pos cur e).1.trailing_active = true ∧
    (evalExit p pos cur e).1.peak_profit_rate =
      profitRate p.mock_trade pos.buy_price pos.buy_qty cur ∧
    (evalExit p pos cur e).2 =
      (if (0 : ℚ) ≤ p.ts_stop then Option.some SellReason.takeProfit else Option.none) := by
  simp only [evalExit, hst, Bool.false_eq_true, if_false, if_neg hcur, if_neg hbpq,
    hauto, not_true, if_neg (by simp : ¬ (False : Prop)),
    if_neg (not_le.mpr hsl), if_neg htc, hta, Bool.not_false, not_false_iff, true_and,
    if_pos harm, lt_self_iff_false, if_false, sub_self, if_true]
  refine ⟨?_, ?_, ?_⟩ <;> split_ifs <;> rfl

theorem evalExit_trailing (hst : containsSub maedo pos.status = false)
    (hcur : ¬ cur = 0) (hbpq : ¬ (pos.buy_price = 0 ∨ pos.buy_qty = 0))
    (hauto : p.auto_sell = true)
    (hsl : applyStopLoss p pos < profitRate p.mock_trade pos.buy_price pos.buy_qty cur)
    (htc : ¬ ((p.time_cut_min : ℚ) < e ∧
      profitRate p.mock_trade pos.buy_price pos.buy_qty cur < 1 / 2))
    (hta : pos.trailing_active = true) :
    (evalExit p pos cur e).1.peak_profit_rate =
      max pos.peak_profit_rate (profitRate p.mock_trade pos.buy_price pos.buy_qty cur) ∧
    (evalExit p pos cur e).2 =
      (if profitRate p.mock_trade pos.buy_price pos.buy_qty cur -
          max pos.peak_profit_rate (profitRate p.mock_trade pos.buy_price pos.buy_qty cur) ≤
          p.ts_stop
        then Option.some SellReason.takeProfit else Option.none) := by
  simp only [evalExit, hst, Bool.false_eq_true, if_false, if_neg hcur, if_neg hbpq,
    hauto, not_true, if_neg (by simp : ¬ (False : Prop)),
    if_neg (not_le.mpr hsl), if_neg htc, hta, Bool.not_true, false_and, if_false,
    if_true]
  by_cases h1 : pos.peak_profit_rate < profitRate p.mock_trade pos.buy_price pos.buy_qty cur
  · rw [max_eq_right (le_of_lt h1)]
    simp only [h1, if_true]
    constructor
    · split_ifs <;> rfl
    · split_ifs <;> rfl
  · rw [max_eq_left (le_of_not_lt h1)]
    simp only [h1, if_false]
    constructor
    · split_ifs <;> rfl
    · split_ifs <;> rfl

theorem evalExit_idle (hst : containsSub maedo pos.status = false)
    (hcur : ¬ cur = 0) (hbpq : ¬ (pos.buy_price = 0 ∨ pos.buy_qty = 0))
    (hauto : p.auto_sell = true)
    (hsl : applyStopLoss p pos < profitRate p.mock_trade pos.buy_price pos.buy_qty cur)
    (htc : ¬ ((p.time_cut_min : ℚ) < e ∧
      profitRate p.mock_trade pos.buy_price pos.buy_qty cur < 1 / 2))
    (hta : pos.trailing_active = false)
    (hlt : profitRate p.mock_trade pos.buy_price pos.buy_qty cur < p.ts_start) :
    (evalExit p pos cur e).2 = Option.none ∧
    (evalExit p pos cur e).1.trailing_active = false := by
  simp only [evalExit, hst, Bool.false_eq_true, if_false, if_neg hcur, if_neg hbpq,
    hauto, not_true, if_neg (by simp : ¬ (False : Prop)),
    if_neg (not_le.mpr hsl), if_neg htc, hta, Bool.not_false, not_false_iff, true_and,
    if_neg (not_le.mpr hlt), if_false]

theorem applyStopLoss_of_ai (hai : p.use_ai_sl = true) :
    applyStopLoss p pos = pos.custom_sl_rate.getD p.global_sl := by
  unfold applyStopLoss
  by_cases h : pos.custom_sl_rate.isSome = true
  · rw [if_pos ⟨hai, h⟩]
  · rw [if_neg (fun hc => h hc.2)]
    cases hcs : pos.custom_sl_rate with
    | none => rfl
    | some v =>
      rw [hcs] at h
      simp at h

theorem evalExit_stopLoss_iff (hst : containsSub maedo pos.status = false)
    (hcur : ¬ cur = 0) (hbpq : ¬ (pos.buy_price = 0 ∨ pos.buy_qty = 0))
    (hauto : p.auto_sell = true) :
    ((evalExit p pos cur e).2 = Option.some SellReason.stopLoss ↔
      profitRate p.mock_trade pos.buy_price pos.buy_qty cur ≤ applyStopLoss p pos) := by
  constructor
  · intro h
    by_contra hnot
    push_neg at hnot
    by_cases htc : ((p.time_cut_min : ℚ) < e ∧
        profitRate p.mock_trade pos.buy_price pos.buy_qty cur < 1 / 2)
    · rw [evalExit_timeCut p pos cur e hst hcur hbpq hauto hnot htc.1 htc.2] at h
      exact absurd h (by simp)
    · by_cases hta : pos.trailing_active = true
      · rw [(evalExit_trailing p pos cur e hst hcur hbpq hauto hnot htc hta).2] at h
        split_ifs at h <;> exact absurd h (by simp)
      · have hta2 : pos.trailing_active = false := by
          cases hb : pos.trailing_active
          · rfl
          · exact absurd hb hta
        by_cases harm : p.ts_start ≤ profitRate p.mock_trade pos.buy_price pos.buy_qty cur
        · rw [(evalExit_arm p pos cur e hst hcur hbpq hauto hnot htc hta2 harm).2.2] at h
          split_ifs at h <;> exact absurd h (by simp)
        · rw [(evalExit_idle p pos cur e hst hcur hbpq hauto hnot htc hta2
            (lt_of_not_le harm)).1] at h
          exact absurd h (by simp)
  · exact evalExit_stopLoss p pos cur e hst hcur hbpq hauto

end EvalExitLemmas

/-! ## Helper lemmas on `morningStep` -/

theorem gross_rate_nonpos_iff (c b : ℚ) (hb : 0 < b) :
    ((c - b) / b * 100 ≤ 0 ↔ c ≤ b) := by
  rw [div_mul_eq_mul_div, div_nonpos_iff]
  constructor
  · rintro (⟨h1, h2⟩ | ⟨h1, h2⟩)
    · linarith
    · nlinarith
  · intro h
    right
    exact ⟨by nlinarith, le_of_lt hb⟩

theorem morningStep_gross_decision (p : ManageParams) (pos : PositionState) (cur : ℤ)
    (o : List Char)
    (hst : containsSub maedo pos.status = false) (hta : pos.trailing_active = false)
    (htgt : isMorningTarget p.overnight_ids pos)
    (hbq : 0 < pos.buy_qty) (hbp : 0 < pos.buy_price) (hcur : ¬ cur = 0) :
    ((morningStep p pos cur (Option.some o)).status = stSellOrderedGap ↔
      cur ≤ pos.buy_price) ∧
    ((morningStep p pos cur (Option.some o)).trailing_active = true ↔
      pos.buy_price < cur) := by
  have hbpq : (0 : ℚ) < (pos.buy_price : ℚ) := by exact_mod_cast hbp
  have hkey : ((cur : ℚ) - (pos.buy_price : ℚ)) / (pos.buy_price : ℚ) * 100 ≤ 0 ↔
      cur ≤ pos.buy_price := by
    rw [gross_rate_nonpos_iff _ _ hbpq]
    exact_mod_cast Iff.rfl
  have hguard : ¬ (pos.buy_qty ≤ 0 ∨ pos.buy_price ≤ 0) := by
    push_neg
    exact ⟨hbq, hbp⟩
  unfold morningStep
  simp only [hst, hta, Bool.or_self, Bool.false_eq_true, if_false,
    if_neg (by simp [htgt] : ¬ ¬ isMorningTarget p.overnight_ids pos),
    if_neg hguard, if_neg hcur]
  by_cases hple : ((cur : ℚ) - (pos.buy_price : ℚ)) / (pos.buy_price : ℚ) * 100 ≤ 0
  · rw [if_pos hple]
    have hle : cur ≤ pos.buy_price := hkey.mp hple
    constructor
    · simp [hle]
    · simp only []
      constructor
      · intro habs
        exact absurd habs (by simp)
      · intro hlt
        exact absurd hle (not_le.mpr hlt)
  · rw [if_neg hple]
    have hlt : pos.buy_price < cur := by
      by_contra hc
      exact hple (hkey.mpr (le_of_not_lt hc))
    constructor
    · simp only []
      constructor
      · intro hgap
        have : containsSub maedo pos.status = true := by
          rw [hgap]
          rfl
        rw [hst] at this
        exact absurd this (by simp)
      · intro hc
        exact absurd hc (not_le.mpr hlt)
    · simp [hlt]

/-! ## Claim C1 — exit rules evaluated in fixed order, first match wins -/

/-- C1 counterexample: the claim's rule (a) — stop-loss at
`custom_stop_loss_rate` when set, else the global rate — is false when
`USE_AI_STOP_LOSS` is off (a reachable setting: the pipeline stores
`custom_sl_rate` on every buy regardless). Paper mode, position 70000×13
with `custom_sl_rate = −1.4` but `use_ai_sl = false` and global rate −5:
at price 68000 the net rate ≈ −3.69% has crossed the custom rate, so the
claim predicts an exit with reason `stop_loss`, yet `manage_open_positions`
compares against the global −5 and triggers no exit at all. -/
theorem c1_custom_rate_ignored_counterexample :
    ({ mock_trade := true, global_sl := -5, ts_start := 3 / 2, ts_stop := -1,
       time_cut_min := 20, use_ai_sl := false, auto_sell := true,
       overnight_ids := [['2']] } : ManageParams).use_ai_sl = false ∧
    ({ status := stHeldFilled, buy_price := 70000, buy_qty := 13,
       trailing_active := false, peak_profit_rate := 0,
       current_profit_rate := 0, custom_sl_rate := Option.some (-7 / 5),
       overnight_approved := false, condition_from := ['0'],
       ord_no := Option.none } : PositionState).custom_sl_rate =
      Option.some (-7 / 5) ∧
    profitRate true 70000 13 68000 ≤ (-7 / 5 : ℚ) ∧
    (evalExit
      { mock_trade := true, global_sl := -5, ts_start := 3 / 2, ts_stop := -1,
        time_cut_min := 20, use_ai_sl := false, auto_sell := true,
        overnight_ids := [['2']] }
      { status := stHeldFilled, buy_price := 70000, buy_qty := 13,
        trailing_active := false, peak_profit_rate := 0,
        current_profit_rate := 0, custom_sl_rate := Option.some (-7 / 5),
        overnight_approved := false, condition_from := ['0'],
        ord_no := Option.none }
      68000 5).2 = Option.none := by
  have hnet : netProfit true 70000 13 68000 = -33605 := by rfl
  refine ⟨rfl, rfl, ?_, ?_⟩
  · rw [profitRate, hnet]
    norm_num
  · have hasl : applyStopLoss
        { mock_trade := true, global_sl := -5, ts_start := 3 / 2, ts_stop := -1,
          time_cut_min := 20, use_ai_sl := false, auto_sell := true,
          overnight_ids := [['2']] }
        { status := stHeldFilled, buy_price := 70000, buy_qty := 13,
          trailing_active := false, peak_profit_rate := 0,
          current_profit_rate := 0, custom_sl_rate := Option.some (-7 / 5),
          overnight_approved := false, condition_from := ['0'],
          ord_no := Option.none } = -5 := by rfl
    refine (evalExit_idle
      { mock_trade := true, global_sl := -5, ts_start := 3 / 2, ts_stop := -1,
        time_cut_min := 20, use_ai_sl := false, auto_sell := true,
        overnight_ids := [['2']] }
      { status := stHeldFilled, buy_price := 70000, buy_qty := 13,
        trailing_active := false, peak_profit_rate := 0,
        current_profit_rate := 0, custom_sl_rate := Option.some (-7 / 5),
        overnight_approved := false, condition_from := ['0'],
        ord_no := Option.none }
      68000 5 rfl (by norm_num) (by decide) rfl ?_ ?_ rfl ?_).1
    · rw [hasl, profitRate, hnet]
      norm_num
    · intro hcon
      exact absurd hcon.1 (by norm_num)
    · rw [profitRate, hnet]
      norm_num

/-- C1 amended: for a managed position (no `SELL_*` status, price and
holding data positive, auto-sell on), the Position Manager evaluates
(a) stop-loss at the effective rate — `custom_stop_loss_rate` when set AND
`use_ai_stop_loss` is enabled, else the global rate — then (b) time-cut,
then (c) trailing arming, then (d) trailing take-profit against the
running peak; the first matching rule alone determines the reason: in
particular a position satisfying both the stop-loss and the take-profit
condition exits with `stop_loss`. -/
theorem c1_exit_rule_order_amended (p : ManageParams) (pos : PositionState)
    (cur : ℤ) (e : ℚ)
    (hst : containsSub maedo pos.status = false)
    (hcur : 0 < cur) (hbp : 0 < pos.buy_price) (hbq : 0 < pos.buy_qty)
    (hauto : p.auto_sell = true) :
    let pr := profitRate p.mock_trade pos.buy_price pos.buy_qty cur
    let effSl := applyStopLoss p pos
    let res := evalExit p pos cur e
    (pr ≤ effSl → res.2 = Option.some SellReason.stopLoss) ∧
    (effSl < pr → (p.time_cut_min : ℚ) < e → pr < 1 / 2 →
      res.2 = Option.some SellReason.timeCut) ∧
    (effSl < pr → ¬ ((p.time_cut_min : ℚ) < e ∧ pr < 1 / 2) →
      pos.trailing_active = false → p.ts_start ≤ pr →
      res.1.trailing_active = true ∧ res.1.peak_profit_rate = pr ∧
      res.2 = (if (0 : ℚ) ≤ p.ts_stop then Option.some SellReason.takeProfit
        else Option.none)) ∧
    (effSl < pr → ¬ ((p.time_cut_min : ℚ) < e ∧ pr < 1 / 2) →
      pos.trailing_active = true →
      res.1.peak_profit_rate = max pos.peak_profit_rate pr ∧
      res.2 = (if pr - max pos.peak_profit_rate pr ≤ p.ts_stop
        then Option.some SellReason.takeProfit else Option.none)) ∧
    (effSl < pr → ¬ ((p.time_cut_min : ℚ) < e ∧ pr < 1 / 2) →
      pos.trailing_active = false → pr < p.ts_start →
      res.2 = Option.none) ∧
    (pr ≤ effSl ∧ pr - max pos.peak_profit_rate pr ≤ p.ts_stop →
      res.2 = Option.some SellReason.stopLoss) := by
  have hcur2 : ¬ cur = 0 := ne_of_gt hcur
  have hbpq : ¬ (pos.buy_price = 0 ∨ pos.buy_qty = 0) := by
    push_neg
    exact ⟨ne_of_gt hbp, ne_of_gt hbq⟩
  refine ⟨?_, ?_, ?_, ?_, ?_, ?_⟩
  · intro hsl
    exact evalExit_stopLoss p pos cur e hst hcur2 hbpq hauto hsl
  · intro hsl htc hpr
    exact evalExit_timeCut p pos cur e hst hcur2 hbpq hauto hsl htc hpr
  · intro hsl htc hta harm
    exact evalExit_arm p pos cur e hst hcur2 hbpq hauto hsl htc hta harm
  · intro hsl htc hta
    exact evalExit_trailing p pos cur e hst hcur2 hbpq hauto hsl htc hta
  · intro hsl htc hta hlt
    exact (evalExit_idle p pos cur e hst hcur2 hbpq hauto hsl htc hta hlt).1
  · intro hboth
    exact evalExit_stopLoss p pos cur e hst hcur2 hbpq hauto hboth.1

/-- C1 witness: a paper-mode position bought at 70000×13 with AI stop-loss
enabled at −1.4%, price down to 68000 (net rate ≈ −3.69%), trailing peak
condition also met — the reason is `stop_loss`. -/
theorem c1_exit_rule_order_amended_witness :
    (evalExit
      { mock_trade := true, global_sl := -3 / 2, ts_start := 3 / 2, ts_stop := -1,
        time_cut_min := 20, use_ai_sl := true, auto_sell := true,
        overnight_ids := [['2']] }
      { status := stHeldFilled, buy_price := 70000, buy_qty := 13,
        trailing_active := true, peak_profit_rate := 2,
        current_profit_rate := 0, custom_sl_rate := Option.some (-7 / 5),
        overnight_approved := false, condition_from := ['0'],
        ord_no := Option.none }
      68000 5).2 = Option.some SellReason.stopLoss := by
  have hnet : netProfit true 70000 13 68000 = -33605 := by rfl
  have hasl : applyStopLoss
      { mock_trade := true, global_sl := -3 / 2, ts_start := 3 / 2, ts_stop := -1,
        time_cut_min := 20, use_ai_sl := true, auto_sell := true,
        overnight_ids := [['2']] }
      { status := stHeldFilled, buy_price := 70000, buy_qty := 13,
        trailing_active := true, peak_profit_rate := 2,
        current_profit_rate := 0, custom_sl_rate := Option.some (-7 / 5),
        overnight_approved := false, condition_from := ['0'],
        ord_no := Option.none } = -7 / 5 := by rfl
  refine (c1_exit_rule_order_amended
    { mock_trade := true, global_sl := -3 / 2, ts_start := 3 / 2, ts_stop := -1,
      time_cut_min := 20, use_ai_sl := true, auto_sell := true,
      overnight_ids := [['2']] }
    { status := stHeldFilled, buy_price := 70000, buy_qty := 13,
      trailing_active := true, peak_profit_rate := 2,
      current_profit_rate := 0, custom_sl_rate := Option.some (-7 / 5),
      overnight_approved := false, condition_from := ['0'],
      ord_no := Option.none }
    68000 5 rfl (by norm_num) (by norm_num) (by norm_num)
    rfl).2.2.2.2.2 ⟨?_, ?_⟩
  · rw [hasl, profitRate, hnet]
    norm_num
  · show profitRate true 70000 13 68000 - max 2 (profitRate true 70000 13 68000) ≤ (-1 : ℚ)
    rw [profitRate, hnet]
    rw [max_eq_left (by norm_num : ((-33605 : ℤ) : ℚ) / ((70000 * 13 : ℤ) : ℚ) * 100 ≤ 2)]
    norm_num

/-! ## Claim C4 — fee table in exit decisions vs the morning gross rate -/

/-- C4 counterexample: paper mode, position 70000×13, price 70100 at
09:01. The net-of-fees rate is negative (≈ −0.71%), so a fee-table
decision would sell; but `try_morning_liquidation` computes the gross rate
`(70100−70000)/70000×100 = 1/7 % > 0` and holds the position (arming
trailing) — the morning sell-versus-hold decision does not use the
net-of-fees rate. -/
theorem c4_morning_gross_rate_counterexample :
    (morningStep
      { mock_trade := true, global_sl := -3 / 2, ts_start := 3 / 2, ts_stop := -1,
        time_cut_min := 20, use_ai_sl := true, auto_sell := true,
        overnight_ids := [['2']] }
      { status := stHeldBalance, buy_price := 70000, buy_qty := 13,
        trailing_active := false, peak_profit_rate := 0, current_profit_rate := 0,
        custom_sl_rate := Option.none, overnight_approved := true,
        condition_from := ['기', '존', '보', '유'], ord_no := Option.none }
      70100 Option.none).trailing_active = true ∧
    (morningStep
      { mock_trade := true, global_sl := -3 / 2, ts_start := 3 / 2, ts_stop := -1,
        time_cut_min := 20, use_ai_sl := true, auto_sell := true,
        overnight_ids := [['2']] }
      { status := stHeldBalance, buy_price := 70000, buy_qty := 13,
        trailing_active := false, peak_profit_rate := 0, current_profit_rate := 0,
        custom_sl_rate := Option.none, overnight_approved := true,
        condition_from := ['기', '존', '보', '유'], ord_no := Option.none }
      70100 Option.none).status = stHeldBalance ∧
    profitRate true 70000 13 70100 < 0 ∧
    ¬ (((70100 : ℚ) - 70000) / 70000 * 100 = profitRate true 70000 13 70100) := by
  have h1 : containsSub maedo stHeldBalance = false := rfl
  have hnet : netProfit true 70000 13 70100 = -6440 := by rfl
  refine ⟨?_, ?_, ?_, ?_⟩
  · norm_num [morningStep, isMorningTarget, condIdOf, h1]
  · norm_num [morningStep, isMorningTarget, condIdOf, h1]
  · rw [profitRate, hnet]
    norm_num
  · rw [profitRate, hnet]
    norm_num

/-- C4 amended: the Position Manager's stop-loss decision is keyed on the
net-of-fees rate computed with the mode-specific fee table
(`profit_rate = 100 × (eval − pure_buy − fees)/pure_buy`), but the
morning-liquidation sell-versus-hold decision at 09:00–09:02 uses the
gross rate `(current − buy)/buy`: it sells exactly when
`current ≤ buy_price` and holds (arming trailing) exactly when
`current > buy_price`, independent of the fee table. -/
theorem c4_fee_table_exit_decisions_amended :
    (∀ (p : ManageParams) (pos : PositionState) (cur : ℤ) (e : ℚ),
      containsSub maedo pos.status = false → ¬ cur = 0 →
      ¬ (pos.buy_price = 0 ∨ pos.buy_qty = 0) → p.auto_sell = true →
      ((evalExit p pos cur e).2 = Option.some SellReason.stopLoss ↔
        profitRate p.mock_trade pos.buy_price pos.buy_qty cur ≤ applyStopLoss p pos)) ∧
    (∀ (p : ManageParams) (pos : PositionState) (cur : ℤ) (o : List Char),
      containsSub maedo pos.status = false → pos.trailing_active = false →
      isMorningTarget p.overnight_ids pos → 0 < pos.buy_qty → 0 < pos.buy_price →
      ¬ cur = 0 →
      (((morningStep p pos cur (Option.some o)).status = stSellOrderedGap ↔
        cur ≤ pos.buy_price) ∧
      ((morningStep p pos cur (Option.some o)).trailing_active = true ↔
        pos.buy_price < cur))) :=
  ⟨fun p pos cur e h1 h2 h3 h4 => evalExit_stopLoss_iff p pos cur e h1 h2 h3 h4,
    fun p pos cur o h1 h2 h3 h4 h5 h6 =>
      morningStep_gross_decision p pos cur o h1 h2 h3 h4 h5 h6⟩

/-- C4 witness: at 69000 ≤ 70000 the morning pass sells at market (status
becomes `매도주문중(시초가손절)`). -/
theorem c4_fee_table_exit_decisions_witness :
    (morningStep
      { mock_trade := true, global_sl := -3 / 2, ts_start := 3 / 2, ts_stop := -1,
        time_cut_min := 20, use_ai_sl := true, auto_sell := true,
        overnight_ids := [['2']] }
      { status := stHeldBalance, buy_price := 70000, buy_qty := 13,
        trailing_active := false, peak_profit_rate := 0, current_profit_rate := 0,
        custom_sl_rate := Option.none, overnight_approved := true,
        condition_from := ['기', '존', '보', '유'], ord_no := Option.none }
      69000 (Option.some ['9'])).status = stSellOrderedGap :=
  ((c4_fee_table_exit_decisions_amended.2
    { mock_trade := true, global_sl := -3 / 2, ts_start := 3 / 2, ts_stop := -1,
      time_cut_min := 20, use_ai_sl := true, auto_sell := true,
      overnight_ids := [['2']] }
    { status := stHeldBalance, buy_price := 70000, buy_qty := 13,
      trailing_active := false, peak_profit_rate := 0, current_profit_rate := 0,
      custom_sl_rate := Option.none, overnight_approved := true,
      condition_from := ['기', '존', '보', '유'], ord_no := Option.none }
    69000 ['9'] rfl rfl (by decide) (by norm_num) (by norm_num)
    (by norm_num)).1).mpr (by norm_num)

/-! ## Claim C3 — the trailing-stop invariant -/

theorem evalExit_status_skip (p : ManageParams) (pos : PositionState) (cur : ℤ) (e : ℚ)
    (h1 : containsSub maedo pos.status = true) :
    evalExit p pos cur e = (pos, Option.none) := by
  simp only [evalExit, h1, if_true]

theorem evalExit_cur_skip (p : ManageParams) (pos : PositionState) (cur : ℤ) (e : ℚ)
    (h1 : containsSub maedo pos.status = false) (h2 : cur = 0) :
    evalExit p pos cur e = (pos, Option.none) := by
  simp only [evalExit, h1, Bool.false_eq_true, if_false, if_pos h2]

theorem evalExit_bpq_skip (p : ManageParams) (pos : PositionState) (cur : ℤ) (e : ℚ)
    (h1 : containsSub maedo pos.status = false) (h2 : ¬ cur = 0)
    (h3 : pos.buy_price = 0 ∨ pos.buy_qty = 0) :
    evalExit p pos cur e = (pos, Option.none) := by
  simp only [evalExit, h1, Bool.false_eq_true, if_false, if_neg h2, if_pos h3]

theorem evalExit_noauto_fst (p : ManageParams) (pos : PositionState) (cur : ℤ) (e : ℚ)
    (h1 : containsSub maedo pos.status = false) (h2 : ¬ cur = 0)
    (h3 : ¬ (pos.buy_price = 0 ∨ pos.buy_qty = 0)) (h4 : ¬ p.auto_sell = true) :
    (evalExit p pos cur e).1 =
      { pos with current_profit_rate := pyRound2Rate (netProfit p.mock_trade pos.buy_price pos.buy_qty cur) (pos.buy_price * pos.buy_qty) } := by
  simp only [evalExit, h1, Bool.false_eq_true, if_false, if_neg h2, if_neg h3, if_pos h4]

theorem evalExit_stopLoss_fst (p : ManageParams) (pos : PositionState) (cur : ℤ) (e : ℚ)
    (h1 : containsSub maedo pos.status = false) (h2 : ¬ cur = 0)
    (h3 : ¬ (pos.buy_price = 0 ∨ pos.buy_qty = 0)) (h4 : p.auto_sell = true)
    (hsl : profitRate p.mock_trade pos.buy_price pos.buy_qty cur ≤ applyStopLoss p pos) :
    (evalExit p pos cur e).1 =
      { pos with current_profit_rate := pyRound2Rate (netProfit p.mock_trade pos.buy_price pos.buy_qty cur) (pos.buy_price * pos.buy_qty) } := by
  simp only [evalExit, h1, Bool.false_eq_true, if_false, if_neg h2, if_neg h3,
    h4, not_true, if_neg (by simp : ¬ (False : Prop)), if_pos hsl]

theorem evalExit_timeCut_fst (p : ManageParams) (pos : PositionState) (cur : ℤ) (e : ℚ)
    (h1 : containsSub maedo pos.status = false) (h2 : ¬ cur = 0)
    (h3 : ¬ (pos.buy_price = 0 ∨ pos.buy_qty = 0)) (h4 : p.auto_sell = true)
    (hsl : applyStopLoss p pos < profitRate p.mock_trade pos.buy_price pos.buy_qty cur)
    (htc : (p.time_cut_min : ℚ) < e ∧
      profitRate p.mock_trade pos.buy_price pos.buy_qty cur < 1 / 2) :
    (evalExit p pos cur e).1 =
      { pos with current_profit_rate := pyRound2Rate (netProfit p.mock_trade pos.buy_price pos.buy_qty cur) (pos.buy_price * pos.buy_qty) } := by
  simp only [evalExit, h1, Bool.false_eq_true, if_false, if_neg h2, if_neg h3,
    h4, not_true, if_neg (by simp : ¬ (False : Prop)), if_neg (not_le.mpr hsl),
    if_pos htc]

theorem evalExit_trailing_ta (p : ManageParams) (pos : PositionState) (cur : ℤ) (e : ℚ)
    (h1 : containsSub maedo pos.status = false) (h2 : ¬ cur = 0)
    (h3 : ¬ (pos.buy_price = 0 ∨ pos.buy_qty = 0)) (h4 : p.auto_sell = true)
    (hsl : applyStopLoss p pos < profitRate p.mock_trade pos.buy_price pos.buy_qty cur)
    (htc : ¬ ((p.time_cut_min : ℚ) < e ∧
      profitRate p.mock_trade pos.buy_price pos.buy_qty cur < 1 / 2))
    (hta : pos.trailing_active = true) :
    (evalExit p pos cur e).1.trailing_active = true := by
  simp only [evalExit, h1, Bool.false_eq_true, if_false, if_neg h2, if_neg h3,
    h4, not_true, if_neg (by simp : ¬ (False : Prop)), if_neg (not_le.mpr hsl),
    if_neg htc, hta, Bool.not_true, false_and, if_false, if_true]
  split_ifs <;> rfl

theorem evalExit_fst_inv (p : ManageParams) (pos : PositionState) (cur : ℤ) (e : ℚ)
    (h : trailingInvAmended p pos) :
    trailingInvAmended p (evalExit p pos cur e).1 := by
  by_cases h1 : containsSub maedo pos.status = true
  · rw [evalExit_status_skip p pos cur e h1]
    exact h
  have h1f : containsSub maedo pos.status = false := Bool.of_not_eq_true h1
  by_cases h2 : cur = 0
  · rw [evalExit_cur_skip p pos cur e h1f h2]
    exact h
  by_cases h3 : pos.buy_price = 0 ∨ pos.buy_qty = 0
  · rw [evalExit_bpq_skip p pos cur e h1f h2 h3]
    exact h
  unfold trailingInvAmended at h ⊢
  by_cases h4 : p.auto_sell = true
  case neg =>
    rw [evalExit_noauto_fst p pos cur e h1f h2 h3 h4]
    intro hta
    exact h hta
  by_cases hsl : profitRate p.mock_trade pos.buy_price pos.buy_qty cur ≤ applyStopLoss p pos
  · rw [evalExit_stopLoss_fst p pos cur e h1f h2 h3 h4 hsl]
    intro hta
    exact h hta
  have hsl2 := lt_of_not_le hsl
  by_cases htc : (p.time_cut_min : ℚ) < e ∧
      profitRate p.mock_trade pos.buy_price pos.buy_qty cur < 1 / 2
  · rw [evalExit_timeCut_fst p pos cur e h1f h2 h3 h4 hsl2 htc]
    intro hta
    exact h hta
  by_cases hta : pos.trailing_active = true
  · have hpk := (evalExit_trailing p pos cur e h1f h2 h3 h4 hsl2 htc hta).1
    intro _
    rw [hpk]
    rcases h hta with hl | hr
    · exact Or.inl (le_trans hl (le_max_left _ _))
    · exact Or.inr (lt_of_lt_of_le hr (le_max_left _ _))
  have hta2 : pos.trailing_active = false := Bool.of_not_eq_true hta
  by_cases harm : p.ts_start ≤ profitRate p.mock_trade pos.buy_price pos.buy_qty cur
  · have harm2 := evalExit_arm p pos cur e h1f h2 h3 h4 hsl2 htc hta2 harm
    intro _
    rw [harm2.2.1]
    exact Or.inl harm
  · have hidle := evalExit_idle p pos cur e h1f h2 h3 h4 hsl2 htc hta2 (lt_of_not_le harm)
    intro hta3
    rw [hidle.2] at hta3
    exact absurd hta3 (by simp)

theorem manageSellEffect_inv (p : ManageParams) (pos : PositionState) (o : List Char)
    (h : trailingInvAmended p pos) :
    trailingInvAmended p (manageSellEffect pos o) := by
  unfold manageSellEffect
  unfold trailingInvAmended at h ⊢
  simpa using h

theorem morningStep_inv (p : ManageParams) (pos : PositionState) (cur : ℤ)
    (ordNo : Option (List Char)) (h : trailingInvAmended p pos) :
    trailingInvAmended p (morningStep p pos cur ordNo) := by
  unfold trailingInvAmended at h ⊢
  cases ordNo with
  | none =>
    simp only [morningStep]
    split_ifs <;>
      first
        | exact h
        | (intro _
           right
           exact lt_of_not_le (by assumption))
  | some o =>
    simp only [morningStep]
    split_ifs <;>
      first
        | exact h
        | (intro _
           right
           exact lt_of_not_le (by assumption))

theorem reconUpdate_inv (p : ManageParams) (pos : PositionState) (pur rmnd : ℤ)
    (sp : ℚ) (h : trailingInvAmended p pos) :
    trailingInvAmended p (reconUpdate pos pur rmnd sp) := by
  unfold trailingInvAmended at h ⊢
  simp only [reconUpdate]
  split_ifs with h1 h2 h3
  · intro hta
    rcases h hta with hl | hr
    · exact Or.inl (le_trans hl (le_of_lt h2))
    · exact Or.inr (lt_trans hr h2)
  · exact h
  · intro hta
    rcases h hta with hl | hr
    · exact Or.inl (le_trans hl (le_of_lt h3))
    · exact Or.inr (lt_trans hr h3)
  · exact h

theorem posInit_inv (p : ManageParams) (s : PositionState) (h : PosInit s) :
    trailingInvAmended p s := by
  cases h with
  | pipeline cur qty cond sl o =>
    intro hta
    simp [pipelineCreate] at hta
  | recon pur rmnd sp cond =>
    intro hta
    simp [reconCreate] at hta
  | restore pur rmnd pr cond ov sl =>
    intro hta
    simp [restoreCreate] at hta

theorem posStep_inv (p : ManageParams) {a b : PositionState} (hstep : PosStep p a b)
    (h : trailingInvAmended p a) : trailingInvAmended p b := by
  cases hstep with
  | manage cur e => exact evalExit_fst_inv p a cur e h
  | manageSell cur e r o hr =>
    exact manageSellEffect_inv p _ o (evalExit_fst_inv p a cur e h)
  | morning cur ordNo => exact morningStep_inv p a cur ordNo h
  | recon pur rmnd sp => exact reconUpdate_inv p a pur rmnd sp h

/-- C3 counterexample: the claimed invariant
`trailing_active → peak_profit_rate ≥ trailing_start_rate` is NOT
preserved by morning liquidation. A restored overnight position bought at
1000, priced 1003 at 09:01 (gross +0.3%), is armed by
`try_morning_liquidation` with `peak = 0.3 < trailing_start_rate = 1.5`,
and the resulting state is reachable. -/
theorem c3_trailing_invariant_counterexample :
    PosReachable
      { mock_trade := true, global_sl := -3 / 2, ts_start := 3 / 2, ts_stop := -1,
        time_cut_min := 20, use_ai_sl := true, auto_sell := true,
        overnight_ids := [['2']] }
      (morningStep
        { mock_trade := true, global_sl := -3 / 2, ts_start := 3 / 2, ts_stop := -1,
          time_cut_min := 20, use_ai_sl := true, auto_sell := true,
          overnight_ids := [['2']] }
        (restoreCreate 1000 10 0 ['기', '존', '보', '유'] true Option.none)
        1003 Option.none) ∧
    (morningStep
      { mock_trade := true, global_sl := -3 / 2, ts_start := 3 / 2, ts_stop := -1,
        time_cut_min := 20, use_ai_sl := true, auto_sell := true,
        overnight_ids := [['2']] }
      (restoreCreate 1000 10 0 ['기', '존', '보', '유'] true Option.none)
      1003 Option.none).trailing_active = true ∧
    ¬ claimedTrailingInv
      { mock_trade := true, global_sl := -3 / 2, ts_start := 3 / 2, ts_stop := -1,
        time_cut_min := 20, use_ai_sl := true, auto_sell := true,
        overnight_ids := [['2']] }
      (morningStep
        { mock_trade := true, global_sl := -3 / 2, ts_start := 3 / 2, ts_stop := -1,
          time_cut_min := 20, use_ai_sl := true, auto_sell := true,
          overnight_ids := [['2']] }
        (restoreCreate 1000 10 0 ['기', '존', '보', '유'] true Option.none)
        1003 Option.none) := by
  have h1 : containsSub maedo stHeldBalance = false := rfl
  have harm : (morningStep
      { mock_trade := true, global_sl := -3 / 2, ts_start := 3 / 2, ts_stop := -1,
        time_cut_min := 20, use_ai_sl := true, auto_sell := true,
        overnight_ids := [['2']] }
      (restoreCreate 1000 10 0 ['기', '존', '보', '유'] true Option.none)
      1003 Option.none).trailing_active = true ∧
      (morningStep
        { mock_trade := true, global_sl := -3 / 2, ts_start := 3 / 2, ts_stop := -1,
          time_cut_min := 20, use_ai_sl := true, auto_sell := true,
          overnight_ids := [['2']] }
        (restoreCreate 1000 10 0 ['기', '존', '보', '유'] true Option.none)
        1003 Option.none).peak_profit_rate = 3 / 10 := by
    norm_num [morningStep, restoreCreate, isMorningTarget, condIdOf, h1]
  refine ⟨?_, harm.1, ?_⟩
  · exact ⟨restoreCreate 1000 10 0 ['기', '존', '보', '유'] true Option.none,
      PosInit.restore 1000 10 0 ['기', '존', '보', '유'] true Option.none,
      Relation.ReflTransGen.single (PosStep.morning _ 1003 Option.none)⟩
  · intro hinv
    have := hinv harm.1
    rw [harm.2] at this
    norm_num at this

/-- C3 amended: in every reachable position state, `trailing_active`
implies `peak_profit_rate ≥ trailing_start_rate` OR `peak_profit_rate > 0`:
Position-Manager arming establishes the former, morning-liquidation arming
only the latter (its peak is the gross profit rate, positive but possibly
below `trailing_start_rate`); peak updates, reconciliation and restoration
preserve the disjunction. -/
theorem c3_trailing_invariant_amended (p : ManageParams) (s : PositionState)
    (h : PosReachable p s) : trailingInvAmended p s := by
  obtain ⟨s0, h0, hsteps⟩ := h
  induction hsteps with
  | refl => exact posInit_inv p s0 h0
  | tail hab hbc ih => exact posStep_inv p hbc ih

/-- C3 witness: a freshly created pipeline position is reachable and
satisfies the amended invariant. -/
theorem c3_trailing_invariant_witness :
    trailingInvAmended
      { mock_trade := true, global_sl := -3 / 2, ts_start := 3 / 2, ts_stop := -1,
        time_cut_min := 20, use_ai_sl := true, auto_sell := true,
        overnight_ids := [['2']] }
      (pipelineCreate 70000 13 ['0'] (-7 / 5) ['1']) :=
  c3_trailing_invariant_amended _ _
    ⟨pipelineCreate 70000 13 ['0'] (-7 / 5) ['1'],
      PosInit.pipeline 70000 13 ['0'] (-7 / 5) ['1'],
      Relation.ReflTransGen.refl⟩

/-! ## Claim C2 — AI stop-loss sizing in the signal pipeline -/

theorem aiStopLossSizing_eq (ctx : PipelineCtx) (cur qty sl : ℤ)
    (hsl : 0 < sl) (hcur : 0 < cur) :
    aiStopLossSizing ctx cur qty sl =
      (if (if 0 < ctx.ai_safety_raw then -ctx.ai_safety_raw else ctx.ai_safety_raw) ≤
          profitRate ctx.mock_trade cur qty sl ∧
          profitRate ctx.mock_trade cur qty sl < 0
        then Option.some (pyRound2Rate (netProfit ctx.mock_trade cur qty sl) (cur * qty))
        else Option.none) := by
  unfold aiStopLossSizing
  rw [if_pos ⟨hsl, hcur⟩]
  rfl

/-- C2 counterexample: spec scenario 3 — paper mode, order amount
1,000,000 won, price 70,000 (so 13 shares), vision stop 66,000, safety
limit −5%. The computed net-of-fees rate ≈ −6.54% is below the limit, so
the entry is rejected and no order is sent — but contrary to the claim NO
re-entry cooldown is installed: the engine state is returned unchanged,
with the cooldown table still empty. -/
theorem c2_reject_installs_no_cooldown_counterexample :
    aiStopLossSizing
      { mock_trade := true, order_amount := 1000000, global_sl := -3 / 2,
        ai_safety_raw := -5 }
      70000 13 66000 = Option.none ∧
    (pipelineTail
      { mock_trade := true, order_amount := 1000000, global_sl := -3 / 2,
        ai_safety_raw := -5 }
      0 ['0', '0', '5', '9', '3', '0'] ['0'] 70000 true 66000 Option.none
      { positions := [], cooldown := [], attempts := [] }).2 = false ∧
    (pipelineTail
      { mock_trade := true, order_amount := 1000000, global_sl := -3 / 2,
        ai_safety_raw := -5 }
      0 ['0', '0', '5', '9', '3', '0'] ['0'] 70000 true 66000 Option.none
      { positions := [], cooldown := [], attempts := [] }).1 =
      { positions := [], cooldown := [], attempts := [] } ∧
    lookupK ['0', '0', '5', '9', '3', '0']
      (pipelineTail
        { mock_trade := true, order_amount := 1000000, global_sl := -3 / 2,
          ai_safety_raw := -5 }
        0 ['0', '0', '5', '9', '3', '0'] ['0'] 70000 true 66000 Option.none
        { positions := [], cooldown := [], attempts := [] }).1.cooldown =
      Option.none := by
  have hqty : buyQty 1000000 70000 = 13 := by rfl
  have hnet : netProfit true 70000 13 66000 = -59475 := by rfl
  have hsizing : aiStopLossSizing
      { mock_trade := true, order_amount := 1000000, global_sl := -3 / 2,
        ai_safety_raw := -5 }
      70000 13 66000 = Option.none := by
    rw [aiStopLossSizing_eq _ _ _ _ (by norm_num) (by norm_num)]
    rw [if_neg]
    intro hcon
    rw [profitRate, hnet] at hcon
    norm_num at hcon
  have htail : pipelineTail
      { mock_trade := true, order_amount := 1000000, global_sl := -3 / 2,
        ai_safety_raw := -5 }
      0 ['0', '0', '5', '9', '3', '0'] ['0'] 70000 true 66000 Option.none
      { positions := [], cooldown := [], attempts := [] } =
      ({ positions := [], cooldown := [], attempts := [] }, false) := by
    unfold pipelineTail
    rw [if_neg (by simp : ¬ (true = false))]
    simp only [hqty]
    rw [if_neg (by norm_num : ¬ (13 : ℤ) = 0)]
    rw [hsizing]
  exact ⟨hsizing, by rw [htail], by rw [htail], by rw [htail]; rfl⟩

/-- C2 amended: with the vision verdict carrying `stop_loss_price > 0`,
the pipeline computes the net-of-fees loss rate at that price with the
mode-specific fee table; if the rate lies in `[ai_stop_loss_safety_limit, 0)`
the (rounded) rate is stored as the position's `custom_sl_rate` and the
buy proceeds; otherwise the entry is rejected — no buy order is submitted
and the engine state (in particular the re-entry cooldown table) is left
completely unchanged. No 10-minute cooldown is installed by this
rejection. -/
theorem c2_ai_stop_loss_sizing_amended (ctx : PipelineCtx) (now : ℚ) (code : Code)
    (cond : List Char) (cur sl : ℤ) (ordNo : Option (List Char)) (st : SignalState)
    (hsl : 0 < sl) (hcur : 0 < cur)
    (hqty : ¬ buyQty ctx.order_amount cur = 0) :
    (¬ ((if 0 < ctx.ai_safety_raw then -ctx.ai_safety_raw else ctx.ai_safety_raw) ≤
        profitRate ctx.mock_trade cur (buyQty ctx.order_amount cur) sl ∧
        profitRate ctx.mock_trade cur (buyQty ctx.order_amount cur) sl < 0) →
      (pipelineTail ctx now code cond cur true sl ordNo st).2 = false ∧
      (pipelineTail ctx now code cond cur true sl ordNo st).1 = st) ∧
    (((if 0 < ctx.ai_safety_raw then -ctx.ai_safety_raw else ctx.ai_safety_raw) ≤
        profitRate ctx.mock_trade cur (buyQty ctx.order_amount cur) sl ∧
        profitRate ctx.mock_trade cur (buyQty ctx.order_amount cur) sl < 0) →
      ∀ o, ordNo = Option.some o →
      (pipelineTail ctx now code cond cur true sl ordNo st).2 = true ∧
      lookupK code (pipelineTail ctx now code cond cur true sl ordNo st).1.positions =
        Option.some (pipelineCreate cur (buyQty ctx.order_amount cur) cond
          (pyRound2Rate (netProfit ctx.mock_trade cur (buyQty ctx.order_amount cur) sl)
            (cur * buyQty ctx.order_amount cur)) o)) := by
  constructor
  · intro hrej
    have htail : pipelineTail ctx now code cond cur true sl ordNo st = (st, false) := by
      unfold pipelineTail
      rw [if_neg (by simp : ¬ (true = false)), if_neg hqty,
        aiStopLossSizing_eq ctx cur (buyQty ctx.order_amount cur) sl hsl hcur,
        if_neg hrej]
    rw [htail]
    exact ⟨rfl, rfl⟩
  · intro hacc o hord
    subst hord
    have htail : pipelineTail ctx now code cond cur true sl (Option.some o) st =
        ({ st with
            attempts := setK code now st.attempts,
            positions := setK code (pipelineCreate cur (buyQty ctx.order_amount cur) cond (pyRound2Rate (netProfit ctx.mock_trade cur (buyQty ctx.order_amount cur) sl) (cur * buyQty ctx.order_amount cur)) o) st.positions }, true) := by
      unfold pipelineTail
      rw [if_neg (by simp : ¬ (true = false)), if_neg hqty,
        aiStopLossSizing_eq ctx cur (buyQty ctx.order_amount cur) sl hsl hcur,
        if_pos hacc]
    rw [htail]
    exact ⟨rfl, lookupK_setK_self _ _ _⟩

/-- C2 witness: spec scenario 2 — vision stop 69,300 at price 70,000 in
paper mode gives a net rate ≈ −1.84%, inside `[−5, 0)`: the buy proceeds
and the created position carries `custom_sl_rate = −1.84`. -/
theorem c2_ai_stop_loss_sizing_witness :
    lookupK ['0', '0', '5', '9', '3', '0']
      (pipelineTail
        { mock_trade := true, order_amount := 1000000, global_sl := -3 / 2,
          ai_safety_raw := -5 }
        0 ['0', '0', '5', '9', '3', '0'] ['0'] 70000 true 69300
        (Option.some ['7']) { positions := [], cooldown := [], attempts := [] }).1.positions =
      Option.some (pipelineCreate 70000 13 ['0']
        (pyRound2Rate (netProfit true 70000 13 69300) (70000 * 13)) ['7']) := by
  have hnet : netProfit true 70000 13 69300 = -16789 := by rfl
  have happ := (c2_ai_stop_loss_sizing_amended
    { mock_trade := true, order_amount := 1000000, global_sl := -3 / 2,
      ai_safety_raw := -5 }
    0 ['0', '0', '5', '9', '3', '0'] ['0'] 70000 69300 (Option.some ['7'])
    { positions := [], cooldown := [], attempts := [] }
    (by norm_num) (by norm_num) (by decide)).2
    (by
      constructor
      · show ((if (0:ℚ) < -5 then -(-5 : ℚ) else (-5 : ℚ))) ≤
          profitRate true 70000 (buyQty 1000000 70000) 69300
        rw [show buyQty 1000000 70000 = 13 from rfl, profitRate, hnet]
        norm_num
      · show profitRate true 70000 (buyQty 1000000 70000) 69300 < 0
        rw [show buyQty 1000000 70000 = 13 from rfl, profitRate, hnet]
        norm_num)
    ['7'] rfl
  exact happ.2

end KiwoomBot
